import Mathlib

/-!
Verification of the core of a small tree-walking interpreter
(erikdelange/Experimental-Interpreter).  The development shallowly embeds

  * the value system and the operator dispatch of `object.c` (the file that
    also carries `none.c`): tagged values, list-node auto-dereference,
    comparison/arithmetic operator admission, the `in` operator, conversions
    and `str_to_char`;
  * a heap model with explicit cells and reference counts for `obj_alloc`,
    `obj_copy` and indexed assignment into list nodes (`obj_assign`);
  * the statement interpreter of `parser.c`: block execution, `skip_block`,
    the break/continue flags, the `while`, `do … while` and `for` statements,
    `return_stmt`, the return-value slot of `function_call` and
    `pop_arguments`.

The repository files `number.c`, `str.c`, `list.c`, `identifier.c` and
`expression.c` are not available; every definition standing in for one of
them is marked `Modelled from the spec:` in its doc comment and follows the
specification's words.  Machine integers are modelled as `Int` (the language's
`int_t` is a wide signed integer; no claim below exercises overflow) and the
IEEE-754 `float_t` as exact rationals `Rat` (no claim below exercises
rounding).
-/

/-- Error kinds of `error.h`: each `error(...)` call in the C sources
terminates the interpreter with one of these. -/
inductive Err where
  | SyntaxError
  | NameError
  | TypeError
  | ValueError
  | IndexError
  | ZeroDivisionError
  | OutOfMemoryError
  | SystemError
  deriving DecidableEq, Repr

/-- Type tags of `object.h` (`objecttype_t`). -/
inductive ObjType where
  | CHAR_T
  | INT_T
  | FLOAT_T
  | STR_T
  | LIST_T
  | LISTNODE_T
  | POSITION_T
  | NONE_T
  deriving DecidableEq, Repr

/-- Values of the interpreter (`Object` and its variants).  A `char` payload
is the numeric code (C `char_t`), a `float` payload an exact rational standing
in for the C double, a `str` payload the character buffer, a `list` payload
the sequence of contained values (each list node's inner value), a `listnode`
the value held by one node, a `position` an opaque reader checkpoint. -/
inductive Obj where
  | char (c : Int)
  | int (i : Int)
  | float (q : Rat)
  | str (s : List Char)
  | list (l : List Obj)
  | listnode (o : Obj)
  | position (p : Nat)
  | none

/-- Type tag of a value (`TYPE(obj)`). -/
def Obj.type : Obj → ObjType
  | .char _ => .CHAR_T
  | .int _ => .INT_T
  | .float _ => .FLOAT_T
  | .str _ => .STR_T
  | .list _ => .LIST_T
  | .listnode _ => .LISTNODE_T
  | .position _ => .POSITION_T
  | .none => .NONE_T

/-- Predicate `isNumber` of `object.h`: char, int and float are numeric. -/
def isNumber : Obj → Bool
  | .char _ => true
  | .int _ => true
  | .float _ => true
  | _ => false

/-- Predicate `isString` of `object.h`. -/
def isString : Obj → Bool
  | .str _ => true
  | _ => false

/-- Predicate `isList` of `object.h`. -/
def isList : Obj → Bool
  | .list _ => true
  | _ => false

/-- Predicate `isListNode` of `object.h`. -/
def isListNode : Obj → Bool
  | .listnode _ => true
  | _ => false

/-- Predicate `isSequence` of `object.h`: a string or a list. -/
def isSequence : Obj → Bool
  | .str _ => true
  | .list _ => true
  | _ => false

/-- The idiom `op = isListNode(op) ? obj_from_listnode(op) : op` that opens
nearly every operator of `object.c`: a list node is dereferenced to the value
it contains, every other value passes through. -/
def derefNode : Obj → Obj
  | .listnode o => o
  | o => o

/-- Numeric value of a numeric object, promoted to the top of the coercion
lattice char < int < float (`coerce` of number.c; rationals stand in for the
C double).  Non-numeric objects map to 0; callers guard with `isNumber`. -/
def numValue : Obj → Rat
  | .char c => (c : Rat)
  | .int i => (i : Rat)
  | .float q => q
  | _ => 0

/-- Numeric coercion rank: rank(char)=0, rank(int)=1, rank(float)=2. -/
def rank : Obj → Nat
  | .char _ => 0
  | .int _ => 1
  | .float _ => 2
  | _ => 0

/-- Value of a numeric object as the C `int_t` (truncation toward zero for a
float, as a C cast does). -/
def intValue : Obj → Int
  | .char c => c
  | .int i => i
  | .float q => q.num.tdiv (q.den : Int)
  | _ => 0

/-- Character buffer of a string object. -/
def strVal : Obj → List Char
  | .str s => s
  | _ => []

/-- Elements of a list object. -/
def listVal : Obj → List Obj
  | .list l => l
  | _ => []

mutual

/-- Equality of two values as the `==` operator decides it: numerics compare
by promoted numeric value (`eql` of number.c, modelled from the spec), strings
by their buffers (`eql` of str.c, modelled from the spec), lists elementwise
(`eql` of list.c, modelled from the spec), and operands of any other pair of
types are by definition not equal. -/
def objEqB : Obj → Obj → Bool
  | .char a, .char b => a == b
  | .char a, .int b => (a : Rat) == (b : Rat)
  | .char a, .float b => (a : Rat) == b
  | .int a, .char b => (a : Rat) == (b : Rat)
  | .int a, .int b => a == b
  | .int a, .float b => (a : Rat) == b
  | .float a, .char b => a == (b : Rat)
  | .float a, .int b => a == (b : Rat)
  | .float a, .float b => a == b
  | .str a, .str b => a == b
  | .list a, .list b => listEqB a b
  | _, _ => false

/-- Elementwise equality of list contents. -/
def listEqB : List Obj → List Obj → Bool
  | [], [] => true
  | a :: as, b :: bs => objEqB a b && listEqB as bs
  | _, _ => false

end

/-- Conversion of a character constant's text to a `char_t` (`str_to_char` of
object.c): a backslash opens an escape sequence and exactly `\0 \b \f \n \r
\t \v \\ \' \"` are known; any other escape fails with ValueError.  An empty
constant or one of more than one character fails with SyntaxError. -/
def escMap : Char → Option Char :=
  fun e =>
    if e = '0' then some (Char.ofNat 0)
    else if e = 'b' then some (Char.ofNat 8)
    else if e = 'f' then some (Char.ofNat 12)
    else if e = 'n' then some '\n'
    else if e = 'r' then some '\r'
    else if e = 't' then some '\t'
    else if e = 'v' then some (Char.ofNat 11)
    else if e = '\\' then some '\\'
    else if e = '\'' then some '\''
    else if e = '\"' then some '\"'
    else Option.none

/-- Conversion `str_to_char` of object.c on the text of a character constant
(the C string's characters before its terminating NUL). -/
def str_to_char (s : List Char) : Except Err Char :=
  match s with
  | [] => .error .SyntaxError
  | '\\' :: rest =>
      match rest with
      | [] => .error .ValueError
      | e :: rest2 =>
          match escMap e with
          | some c => if rest2 = [] then .ok c else .error .SyntaxError
          | Option.none => .error .ValueError
  | c :: rest => if rest = [] then .ok c else .error .SyntaxError

/-- Digits of a decimal numeral. -/
def digitsVal : List Char → Option Nat
  | [] => Option.none
  | ds => ds.foldl (fun acc c =>
      match acc with
      | some n => if c.isDigit then some (n * 10 + (c.toNat - 48)) else Option.none
      | Option.none => Option.none) (some 0)

/-- Modelled from the spec: `str_to_int` of object.c parses a decimal integer
and requires whole-string consumption (an unparsed tail fails with
ValueError).  As C `strtol` does, the empty string yields 0. -/
def str_to_int (s : List Char) : Except Err Int :=
  match s with
  | [] => .ok 0
  | '-' :: ds =>
      match digitsVal ds with
      | some n => .ok (-(n : Int))
      | Option.none => .error .ValueError
  | '+' :: ds =>
      match digitsVal ds with
      | some n => .ok (n : Int)
      | Option.none => .error .ValueError
  | ds =>
      match digitsVal ds with
      | some n => .ok (n : Int)
      | Option.none => .error .ValueError

/-- Modelled from the spec: `str_to_float` of object.c parses a decimal
number with an optional fractional part and requires whole-string
consumption.  As C `strtod` does, the empty string yields 0. -/
def str_to_float (s : List Char) : Except Err Rat :=
  let parsePos : List Char → Option Rat := fun t =>
    match t.splitOn '.' with
    | [ds] => (digitsVal ds).map (fun n => (n : Rat))
    | [ds, fs] =>
        match digitsVal ds, digitsVal fs with
        | some n, some f => some ((n : Rat) + (f : Rat) / ((10 : Rat) ^ fs.length))
        | _, _ => Option.none
    | _ => Option.none
  match s with
  | [] => .ok 0
  | '-' :: t =>
      match parsePos t with
      | some q => .ok (-q)
      | Option.none => .error .ValueError
  | '+' :: t =>
      match parsePos t with
      | some q => .ok q
      | Option.none => .error .ValueError
  | t =>
      match parsePos t with
      | some q => .ok q
      | Option.none => .error .ValueError

/-- Conversion `obj_as_char` of object.c: numeric values cast to a character
code, a string parses as a character constant, anything else fails with
ValueError. -/
def obj_as_char (op1 : Obj) : Except Err Int :=
  match derefNode op1 with
  | .char c => .ok c
  | .int i => .ok i
  | .float q => .ok (intValue (.float q))
  | .str s => (str_to_char s).map (fun c => (c.toNat : Int))
  | _ => .error .ValueError

/-- Conversion `obj_as_int` of object.c. -/
def obj_as_int (op1 : Obj) : Except Err Int :=
  match derefNode op1 with
  | .char c => .ok c
  | .int i => .ok i
  | .float q => .ok (intValue (.float q))
  | .str s => str_to_int s
  | _ => .error .ValueError

/-- Conversion `obj_as_float` of object.c. -/
def obj_as_float (op1 : Obj) : Except Err Rat :=
  match derefNode op1 with
  | .char c => .ok (c : Rat)
  | .int i => .ok (i : Rat)
  | .float q => .ok q
  | .str s => str_to_float s
  | _ => .error .ValueError

/-- Conversion `obj_as_str` of object.c: only a string converts. -/
def obj_as_str (op1 : Obj) : Except Err (List Char) :=
  match derefNode op1 with
  | .str s => .ok s
  | _ => .error .ValueError

/-- Conversion `obj_as_list` of object.c: only a list converts. -/
def obj_as_list (op1 : Obj) : Except Err (List Obj) :=
  match derefNode op1 with
  | .list l => .ok l
  | _ => .error .ValueError

/-- Conversion `obj_as_bool` of object.c: a numeric value is true when
nonzero; anything else fails with ValueError. -/
def obj_as_bool (op1 : Obj) : Except Err Bool :=
  match derefNode op1 with
  | .char c => .ok (c != 0)
  | .int i => .ok (i != 0)
  | .float q => .ok (q != 0)
  | _ => .error .ValueError

/-- Textual form of an integer. -/
def intChars (i : Int) : List Char := (toString i).toList

/-- Conversion `obj_to_strobj` of object.c: the canonical textual form of a
value as a string object.  The float formatting of `%.16lG` is represented by
the rational's own rendering, and a char renders as its glyph. -/
def obj_to_strobj (obj : Obj) : Obj :=
  match obj with
  | .str s => .str s
  | .char c => .str [Char.ofNat c.toNat]
  | .int i => .str (intChars i)
  | .float q => .str (toString q).toList
  | .none => .str ['N', 'o', 'n', 'e']
  | _ => .str []

/-- Modelled from the spec: binary arithmetic of number.c promotes to the
higher-ranked operand type (char < int < float). -/
def numBinResult (op1 op2 : Obj) (f : Int → Int → Int) (g : Rat → Rat → Rat) : Obj :=
  if rank op1 = 2 || rank op2 = 2 then .float (g (numValue op1) (numValue op2))
  else if rank op1 = 1 || rank op2 = 1 then .int (f (intValue op1) (intValue op2))
  else .char (f (intValue op1) (intValue op2))

/-- Modelled from the spec: `add` of number.c. -/
def number_add (op1 op2 : Obj) : Except Err Obj :=
  .ok (numBinResult op1 op2 (· + ·) (· + ·))

/-- Modelled from the spec: `sub` of number.c. -/
def number_sub (op1 op2 : Obj) : Except Err Obj :=
  .ok (numBinResult op1 op2 (· - ·) (· - ·))

/-- Modelled from the spec: `mul` of number.c. -/
def number_mul (op1 op2 : Obj) : Except Err Obj :=
  .ok (numBinResult op1 op2 (· * ·) (· * ·))

/-- Modelled from the spec: `div` of number.c; integer division by zero fails
with ZeroDivisionError.  Division truncates toward zero as C does.  (A float
division by zero would produce an IEEE infinity; rationals cannot, so the
model reports ZeroDivisionError there as well — no claim exercises it.) -/
def number_div (op1 op2 : Obj) : Except Err Obj :=
  if numValue op2 = 0 then .error .ZeroDivisionError
  else .ok (numBinResult op1 op2 (fun a b => a.tdiv b) (· / ·))

/-- Modelled from the spec: `mod` of number.c; the remainder follows the sign
of the dividend for integers (C `%`), and a zero divisor fails with
ZeroDivisionError. -/
def number_mod (op1 op2 : Obj) : Except Err Obj :=
  if numValue op2 = 0 then .error .ZeroDivisionError
  else .ok (numBinResult op1 op2 (fun a b => a.tmod b)
              (fun a b => a - b * ((a / b).num.tdiv ((a / b).den : Int) : Rat)))

/-- Modelled from the spec: a comparison of number.c returns an int 0/1. -/
def numCmp (op1 op2 : Obj) (f : Rat → Rat → Bool) : Obj :=
  .int (if f (numValue op1) (numValue op2) then 1 else 0)

/-- Modelled from the spec: `eql` of number.c. -/
def number_eql (op1 op2 : Obj) : Obj := numCmp op1 op2 (· == ·)

/-- Modelled from the spec: `neq` of number.c. -/
def number_neq (op1 op2 : Obj) : Obj := numCmp op1 op2 (· != ·)

/-- Modelled from the spec: `eql` of str.c compares the two buffers. -/
def str_eql (op1 op2 : Obj) : Obj :=
  .int (if strVal op1 == strVal op2 then 1 else 0)

/-- Modelled from the spec: `neq` of str.c. -/
def str_neq (op1 op2 : Obj) : Obj :=
  .int (if strVal op1 == strVal op2 then 0 else 1)

/-- Modelled from the spec: `eql` of list.c compares elementwise with the
`==` of the element types. -/
def list_eql (op1 op2 : Obj) : Obj :=
  .int (if listEqB (listVal op1) (listVal op2) then 1 else 0)

/-- Modelled from the spec: `neq` of list.c. -/
def list_neq (op1 op2 : Obj) : Obj :=
  .int (if listEqB (listVal op1) (listVal op2) then 0 else 1)

/-- Modelled from the spec: `concat` of str.c coerces a non-string operand to
its textual form (`obj_to_strobj` of object.c) and concatenates. -/
def str_concat (op1 op2 : Obj) : Except Err Obj :=
  .ok (.str (strVal (obj_to_strobj op1) ++ strVal (obj_to_strobj op2)))

/-- Modelled from the spec: `concat` of list.c concatenates two lists (the
deep copy of the elements is invisible at the value level). -/
def list_concat (op1 op2 : Obj) : Except Err Obj :=
  .ok (.list (listVal op1 ++ listVal op2))

/-- Modelled from the spec: `repeat` of str.c repeats the string operand as
many times as the numeric operand's integer value (`obj_as_int` of object.c);
a non-positive count yields the empty string. -/
def str_repeat (op1 op2 : Obj) : Except Err Obj :=
  let s := if isString op1 then strVal op1 else strVal op2
  let nObj := if isString op1 then op2 else op1
  match obj_as_int nObj with
  | .ok n => .ok (.str (List.flatten (List.replicate n.toNat s)))
  | .error e => .error e

/-- Modelled from the spec: `repeat` of list.c. -/
def list_repeat (op1 op2 : Obj) : Except Err Obj :=
  let l := if isList op1 then listVal op1 else listVal op2
  let nObj := if isList op1 then op2 else op1
  match obj_as_int nObj with
  | .ok n => .ok (.list (List.flatten (List.replicate n.toNat l)))
  | .error e => .error e

/-- Operator `obj_add` of object.c: two numbers add, any string operand turns
the operation into string concatenation, two lists concatenate, and every
other pair of operand types fails with TypeError. -/
def obj_add (op1 op2 : Obj) : Except Err Obj :=
  let a := derefNode op1
  let b := derefNode op2
  if isNumber a && isNumber b then number_add a b
  else if isString a || isString b then str_concat a b
  else if isList a && isList b then list_concat a b
  else .error .TypeError

/-- Operator `obj_sub` of object.c. -/
def obj_sub (op1 op2 : Obj) : Except Err Obj :=
  let a := derefNode op1
  let b := derefNode op2
  if isNumber a && isNumber b then number_sub a b
  else .error .TypeError

/-- Operator `obj_mult` of object.c: two numbers multiply; a numeric operand
paired with a string dispatches to string repetition, a numeric operand
paired with a list to list repetition; every other pair fails with
TypeError. -/
def obj_mult (op1 op2 : Obj) : Except Err Obj :=
  let a := derefNode op1
  let b := derefNode op2
  if isNumber a && isNumber b then number_mul a b
  else if (isNumber a || isNumber b) && (isString a || isString b) then str_repeat a b
  else if (isNumber a || isNumber b) && (isList a || isList b) then list_repeat a b
  else .error .TypeError

/-- Operator `obj_divs` of object.c. -/
def obj_divs (op1 op2 : Obj) : Except Err Obj :=
  let a := derefNode op1
  let b := derefNode op2
  if isNumber a && isNumber b then number_div a b
  else .error .TypeError

/-- Operator `obj_mod` of object.c. -/
def obj_mod (op1 op2 : Obj) : Except Err Obj :=
  let a := derefNode op1
  let b := derefNode op2
  if isNumber a && isNumber b then number_mod a b
  else .error .TypeError

/-- Operator `obj_invert` of object.c (unary minus). -/
def obj_invert (op1 : Obj) : Except Err Obj :=
  let a := derefNode op1
  if isNumber a then number_sub (.int 0) a
  else .error .TypeError

/-- Operator `obj_eql` of object.c: numbers, strings and lists compare with
the `eql` of their type, and operands of different types are by definition
not equal — the operator never fails. -/
def obj_eql (op1 op2 : Obj) : Except Err Obj :=
  let a := derefNode op1
  let b := derefNode op2
  if isNumber a && isNumber b then .ok (number_eql a b)
  else if isString a && isString b then .ok (str_eql a b)
  else if isList a && isList b then .ok (list_eql a b)
  else .ok (.int 0)

/-- Operator `obj_neq` of object.c: as `obj_eql`, with operands of different
types by definition not equal (int 1). -/
def obj_neq (op1 op2 : Obj) : Except Err Obj :=
  let a := derefNode op1
  let b := derefNode op2
  if isNumber a && isNumber b then .ok (number_neq a b)
  else if isString a && isString b then .ok (str_neq a b)
  else if isList a && isList b then .ok (list_neq a b)
  else .ok (.int 1)

/-- Operator `obj_lss` of object.c. -/
def obj_lss (op1 op2 : Obj) : Except Err Obj :=
  let a := derefNode op1
  let b := derefNode op2
  if isNumber a && isNumber b then .ok (numCmp a b (· < ·))
  else .error .TypeError

/-- Operator `obj_leq` of object.c. -/
def obj_leq (op1 op2 : Obj) : Except Err Obj :=
  let a := derefNode op1
  let b := derefNode op2
  if isNumber a && isNumber b then .ok (numCmp a b (· ≤ ·))
  else .error .TypeError

/-- Operator `obj_gtr` of object.c. -/
def obj_gtr (op1 op2 : Obj) : Except Err Obj :=
  let a := derefNode op1
  let b := derefNode op2
  if isNumber a && isNumber b then .ok (numCmp a b (fun x y => y < x))
  else .error .TypeError

/-- Operator `obj_geq` of object.c. -/
def obj_geq (op1 op2 : Obj) : Except Err Obj :=
  let a := derefNode op1
  let b := derefNode op2
  if isNumber a && isNumber b then .ok (numCmp a b (fun x y => y ≤ x))
  else .error .TypeError

/-- Operator `obj_or` of object.c (no short-circuit; both operands must be
numeric). -/
def obj_or (op1 op2 : Obj) : Except Err Obj :=
  let a := derefNode op1
  let b := derefNode op2
  if isNumber a && isNumber b then
    .ok (.int (if numValue a != 0 || numValue b != 0 then 1 else 0))
  else .error .TypeError

/-- Operator `obj_and` of object.c. -/
def obj_and (op1 op2 : Obj) : Except Err Obj :=
  let a := derefNode op1
  let b := derefNode op2
  if isNumber a && isNumber b then
    .ok (.int (if numValue a != 0 && numValue b != 0 then 1 else 0))
  else .error .TypeError

/-- Operator `obj_negate` of object.c (logical not, numeric only). -/
def obj_negate (op1 : Obj) : Except Err Obj :=
  let a := derefNode op1
  if isNumber a then .ok (.int (if numValue a == 0 then 1 else 0))
  else .error .TypeError

/-- Modelled from the spec: a negative index counts from the end of the
sequence, an index out of range fails with IndexError. -/
def seqIndex (len : Nat) (i : Int) : Except Err Nat :=
  let j := if i < 0 then i + (len : Int) else i
  if 0 ≤ j ∧ j < (len : Int) then .ok j.toNat else .error .IndexError

/-- Operator `obj_item` of object.c: indexing a string yields the character
at the index (a char object, modelled from str.c), indexing a list yields the
node's value; any other sequence fails with TypeError. -/
def obj_item (sequence : Obj) (index : Int) : Except Err Obj :=
  let s := derefNode sequence
  match s with
  | .str cs =>
      match seqIndex cs.length index with
      | .ok j => .ok (.char ((cs.getD j ' ').toNat : Int))
      | .error e => .error e
  | .list l =>
      match seqIndex l.length index with
      | .ok j => .ok (l.getD j .none)
      | .error e => .error e
  | _ => .error .TypeError

/-- Modelled from the spec: slice bounds clamp to [0, len], a negative bound
counts from the end, and start beyond end yields the empty sequence. -/
def sliceBounds (len : Nat) (a b : Int) : Nat × Nat :=
  let clamp : Int → Nat := fun i =>
    let j := if i < 0 then i + (len : Int) else i
    if j < 0 then 0 else if (len : Int) < j then len else j.toNat
  (clamp a, clamp b)

/-- Operator `obj_slice` of object.c. -/
def obj_slice (sequence : Obj) (start stop : Int) : Except Err Obj :=
  let s := derefNode sequence
  match s with
  | .str cs =>
      let (a, b) := sliceBounds cs.length start stop
      .ok (.str ((cs.take b).drop a))
  | .list l =>
      let (a, b) := sliceBounds l.length start stop
      .ok (.list ((l.take b).drop a))
  | _ => .error .TypeError

/-- Operation `obj_length` of object.c: the number of items of a string or a
list; anything else fails with TypeError ("not subscriptable"). -/
def obj_length (sequence : Obj) : Except Err Int :=
  let s := derefNode sequence
  match s with
  | .str cs => .ok (cs.length : Int)
  | .list l => .ok (l.length : Int)
  | _ => .error .TypeError

/-- Items of a sequence in index order, as `obj_item` delivers them inside
`obj_in`: the characters of a string as char objects, the values of a list. -/
def seqItems : Obj → List Obj
  | .str cs => cs.map (fun c => .char (c.toNat : Int))
  | .list l => l
  | _ => []

/-- Loop of `obj_in` (object.c): `result` starts as the C NULL pointer
(`Option.none`), each iteration replaces it by the `==` comparison of the
left operand with the next item and stops as soon as a comparison yields 1;
the loop's final `result` is returned as is. -/
def obj_in_loop (op1 : Obj) : List Obj → Option Obj → Except Err (Option Obj)
  | [], result => .ok result
  | item :: rest, _ =>
      match obj_eql op1 item with
      | .ok r =>
          match obj_as_int r with
          | .ok n => if n = 1 then .ok (some r) else obj_in_loop op1 rest (some r)
          | .error e => .error e
      | .error e => .error e

/-- Operator `obj_in` of object.c: the right operand must be a sequence
(TypeError otherwise); the left operand is compared with `==` against each
item.  The returned `Option Obj` mirrors the C `Object *result`: for an empty
sequence the loop never runs and the function returns the NULL it started
with (`Option.none`). -/
def obj_in (op1 op2 : Obj) : Except Err (Option Obj) :=
  let a := derefNode op1
  let b := derefNode op2
  if isSequence b then
    match obj_length b with
    | .ok _ => obj_in_loop a (seqItems b) Option.none
    | .error e => .error e
  else .error .TypeError

/-- Operation `obj_copy` of object.c at the value level: scalars, strings and
lists copy, a list node copies the value it contains, and any other type
fails with TypeError ("cannot copy").  (Heap-level freshness of the copy is
the subject of the heap model below.) -/
def obj_copy : Obj → Except Err Obj
  | .char c => .ok (.char c)
  | .int i => .ok (.int i)
  | .float q => .ok (.float q)
  | .str s => .ok (.str s)
  | .list l => .ok (.list l)
  | .listnode o => obj_copy o
  | _ => .error .TypeError

/-- Operation `obj_assign` of object.c at the value level: the value stored
into a target is coerced to the target's type — a char target stores
`obj_as_char`, an int target `obj_as_int`, a float target `obj_as_float`, a
string target the textual form (`obj_to_strobj`), a list target requires a
list, a list-node target stores `obj_copy` of the source, and any other
target type fails with TypeError. -/
def obj_assign (target op2 : Obj) : Except Err Obj :=
  match target with
  | .char _ => (obj_as_char op2).map (fun c => .char c)
  | .int _ => (obj_as_int op2).map (fun i => .int i)
  | .float _ => (obj_as_float op2).map (fun q => .float q)
  | .str _ => .ok (.str (strVal (obj_to_strobj op2)))
  | .list _ => (obj_as_list op2).map (fun l => .list l)
  | .listnode _ => (obj_copy op2).map (fun v => .listnode v)
  | _ => .error .TypeError

/-! ## Heap model

Reference counts, freshness of allocation and sharing between values are
properties of the C object graph, not of values.  The heap model represents
each `Object` as a cell addressed by an id: a list object holds the ids of
its list-node cells, a list-node cell the id of the value it owns.  Ids are
never reused (the allocator counts up), which models the fact that a live
object's address stays valid. -/

/-- Payload of a heap cell: the type tag and data of one `Object`. -/
inductive HVal where
  | hchar (c : Int)
  | hint (i : Int)
  | hfloat (q : Rat)
  | hstr (s : List Char)
  | hlist (nodes : List Nat)
  | hnode (sub : Option Nat)
  | hpos (p : Nat)
  | hnone
  deriving DecidableEq, Repr

/-- One allocated `Object`: its reference count and payload. -/
structure Cell where
  rc : Nat
  val : HVal
  deriving DecidableEq, Repr

/-- The object heap: the next fresh id and the allocated cells (newest
first; an update prepends, so `Heap.lookup` sees the newest binding). -/
structure Heap where
  next : Nat
  cells : List (Nat × Cell)
  deriving DecidableEq, Repr

/-- Lookup in an association list of cells, newest binding first. -/
def cellsLookup : List (Nat × Cell) → Nat → Option Cell
  | [], _ => Option.none
  | (a, c) :: rest, id => if a = id then some c else cellsLookup rest id

/-- Cell stored at an id. -/
def Heap.lookup (h : Heap) (id : Nat) : Option Cell :=
  cellsLookup h.cells id

/-- Replacement of the cell at an id (the id keeps its address). -/
def Heap.update (h : Heap) (id : Nat) (c : Cell) : Heap :=
  ⟨h.next, (id, c) :: h.cells⟩

/-- Well-formed heap: every allocated id is below the allocation counter. -/
def Heap.wf (h : Heap) : Prop :=
  ∀ id c, h.lookup id = some c → id < h.next

/-- Id of the `none` singleton (`NoneObject none` of none.c, a static object
whose initial reference count is 1). -/
def NONE_ID : Nat := 0

/-- The heap at interpreter start: only the static `none` singleton, with the
reference count 1 its initializer gives it. -/
def initHeap : Heap := ⟨1, [(NONE_ID, ⟨1, .hnone⟩)]⟩

/-- Allocation of a fresh cell with the given payload and reference count. -/
def heapAlloc (h : Heap) (v : HVal) (rc : Nat) : Heap × Nat :=
  (⟨h.next + 1, (h.next, ⟨rc, v⟩) :: h.cells⟩, h.next)

/-- Default initial payload each type's `alloc` gives a new object
(modelled from the spec for the types whose sources are absent: numeric 0,
empty string/list; a fresh list node owns nothing yet). -/
def typeDefault : ObjType → HVal
  | .CHAR_T => .hchar 0
  | .INT_T => .hint 0
  | .FLOAT_T => .hfloat 0
  | .STR_T => .hstr []
  | .LIST_T => .hlist []
  | .LISTNODE_T => .hnode Option.none
  | .POSITION_T => .hpos 0
  | .NONE_T => .hnone

/-- Allocation `obj_alloc` of object.c: the type's `alloc` makes the object
(reference count 0 for the heap types, modelled from the spec; `none_alloc`
of none.c returns the singleton with whatever count it has), then
`obj_incref` raises the count by one. -/
def obj_alloc (h : Heap) (t : ObjType) : Heap × Nat :=
  if t = .NONE_T then
    match h.lookup NONE_ID with
    | some c => (h.update NONE_ID ⟨c.rc + 1, c.val⟩, NONE_ID)
    | Option.none => (h, NONE_ID)
  else heapAlloc h (typeDefault t) 1

mutual

/-- Value stored at an id, read out of the heap as a value tree (fuel bounds
the depth; the data model cannot form cycles, so enough fuel always exists
for a value the interpreter built). -/
def readObj : Nat → Heap → Nat → Option Obj
  | 0, _, _ => Option.none
  | f+1, h, id =>
      match h.lookup id with
      | some c =>
          match c.val with
          | .hchar v => some (.char v)
          | .hint v => some (.int v)
          | .hfloat v => some (.float v)
          | .hstr v => some (.str v)
          | .hpos v => some (.position v)
          | .hnone => some .none
          | .hlist nodes => (readNodes f h nodes).map (fun l => .list l)
          | .hnode (some sub) => (readObj f h sub).map (fun v => .listnode v)
          | .hnode Option.none => Option.none
      | Option.none => Option.none

/-- Values owned by a sequence of list-node cells. -/
def readNodes : Nat → Heap → List Nat → Option (List Obj)
  | 0, _, _ => Option.none
  | _+1, _, [] => some []
  | f+1, h, nid :: rest =>
      match h.lookup nid with
      | some c =>
          match c.val with
          | .hnode (some sub) =>
              match readObj f h sub, readNodes f h rest with
              | some v, some vs => some (v :: vs)
              | _, _ => Option.none
          | _ => Option.none
      | Option.none => Option.none

end

mutual

/-- Operation `obj_copy` of object.c over the heap: a scalar or string
creates a fresh cell with the same payload (`obj_create`), a list creates a
deep copy — every node's value is copied recursively and wrapped in a fresh
node (the list `vset` of list.c, modelled from the spec: "`list → list`
stores nodes owning freshly deep-copied children") — a list node copies the
value it contains, and any other type cannot be copied (TypeError in the C
code; `Option.none` here). -/
def obj_copy_h : Nat → Heap → Nat → Option (Heap × Nat)
  | 0, _, _ => Option.none
  | f+1, h, src =>
      match h.lookup src with
      | some c =>
          match c.val with
          | .hchar v => some (heapAlloc h (.hchar v) 1)
          | .hint v => some (heapAlloc h (.hint v) 1)
          | .hfloat v => some (heapAlloc h (.hfloat v) 1)
          | .hstr v => some (heapAlloc h (.hstr v) 1)
          | .hlist nodes =>
              match copyNodes f h nodes with
              | some (h1, ids) => some (heapAlloc h1 (.hlist ids) 1)
              | Option.none => Option.none
          | .hnode (some sub) => obj_copy_h f h sub
          | _ => Option.none
      | Option.none => Option.none

/-- Deep copy of a sequence of list nodes: each node's value is copied, then
a fresh node cell owning the copy is made. -/
def copyNodes : Nat → Heap → List Nat → Option (Heap × List Nat)
  | 0, _, _ => Option.none
  | _+1, h, [] => some (h, [])
  | f+1, h, nid :: rest =>
      match h.lookup nid with
      | some c =>
          match c.val with
          | .hnode (some sub) =>
              match obj_copy_h f h sub with
              | some (h1, cid) =>
                  match heapAlloc h1 (.hnode (some cid)) 1 with
                  | (h2, nodeId) =>
                      match copyNodes f h2 rest with
                      | some (h3, ids) => some (h3, nodeId :: ids)
                      | Option.none => Option.none
              | Option.none => Option.none
          | _ => Option.none
      | Option.none => Option.none

end

/-- Operation `obj_assign` of object.c for a list-node target (an indexed
assignment into a list element): the node is set to the object `obj_copy`
returns.  (The release of the node's previous value is not modelled; ids are
never reused, so this cannot affect the sharing properties proved below.) -/
def obj_assign_h (f : Nat) (h : Heap) (target src : Nat) : Option Heap :=
  match h.lookup target with
  | some c =>
      match c.val with
      | .hnode _ =>
          match obj_copy_h f h src with
          | some (h1, cid) => some (h1.update target ⟨c.rc, .hnode (some cid)⟩)
          | Option.none => Option.none
      | _ => Option.none
  | Option.none => Option.none

/-- Operator `obj_eql` of object.c over the heap: the comparison of the two
operand values ends in `obj_create(INT_T, …)` — a freshly allocated int
object with reference count 1; the operands are only read. -/
def obj_eql_h (f : Nat) (h : Heap) (p q : Nat) : Option (Heap × Nat) :=
  match readObj f h p, readObj f h q with
  | some a, some b =>
      match obj_eql a b with
      | .ok (.int k) => some (heapAlloc h (.hint k) 1)
      | _ => Option.none
  | _, _ => Option.none

/-- Ids a cell's payload points at: the nodes of a list, the owned value of a
node. -/
def childIds : HVal → List Nat
  | .hlist nodes => nodes
  | .hnode (some sub) => [sub]
  | _ => []

/-- Heap region above `n` is closed: every cell at an id ≥ n points only at
ids ≥ n.  A deep copy into a heap whose ids are all below `n` satisfies
this — the copy shares nothing with the original cells. -/
def NewClosed (h : Heap) (n : Nat) : Prop :=
  ∀ id c, h.lookup id = some c → n ≤ id → ∀ j ∈ childIds c.val, n ≤ j

theorem cellsLookup_mem {l : List (Nat × Cell)} {id : Nat} {c : Cell} (h : cellsLookup l id = some c) : (id, c) ∈ l := by
  induction l with
  | nil => simp [cellsLookup] at h
  | cons p rest ih =>
      obtain ⟨a, c0⟩ := p
      by_cases ha : a = id
      · subst ha
        simp [cellsLookup] at h
        simp [h]
      · simp [cellsLookup, ha] at h
        exact List.mem_cons_of_mem _ (ih h)

theorem Heap.wf_of_cells (h : Heap) (hc : ∀ p ∈ h.cells, p.1 < h.next) : h.wf := by
  intro id c hl
  exact hc (id, c) (cellsLookup_mem hl)

theorem Heap.lookup_update_self (h : Heap) (id : Nat) (c : Cell) : (h.update id c).lookup id = some c := by
  simp [Heap.update, Heap.lookup, cellsLookup]

theorem Heap.lookup_update_ne (h : Heap) (m id : Nat) (c : Cell) (hne : m ≠ id) : (h.update m c).lookup id = h.lookup id := by
  simp [Heap.update, Heap.lookup, cellsLookup, hne]

theorem Heap.lookup_alloc_self (h : Heap) (v : HVal) (rc : Nat) : (heapAlloc h v rc).1.lookup h.next = some ⟨rc, v⟩ := by
  simp [heapAlloc, Heap.lookup, cellsLookup]

theorem Heap.lookup_alloc_ne (h : Heap) (v : HVal) (rc : Nat) (id : Nat) (hne : id ≠ h.next) : (heapAlloc h v rc).1.lookup id = h.lookup id := by
  simp [heapAlloc, Heap.lookup, cellsLookup, Ne.symm hne]

theorem Heap.lookup_next_none (h : Heap) (hwf : h.wf) : h.lookup h.next = Option.none := by
  cases hl : h.lookup h.next with
  | none => rfl
  | some c => exact absurd (hwf _ _ hl) (lt_irrefl _)

theorem Heap.wf_update (h : Heap) (m : Nat) (c : Cell) (hwf : h.wf) (hm : m < h.next) : (h.update m c).wf := by
  intro id c0 hl
  by_cases hid : m = id
  · subst hid
    exact hm
  · rw [Heap.lookup_update_ne h m id c hid] at hl
    exact hwf id c0 hl

theorem Heap.wf_alloc (h : Heap) (v : HVal) (rc : Nat) (hwf : h.wf) : (heapAlloc h v rc).1.wf := by
  intro id c0 hl
  by_cases hid : id = h.next
  · subst hid
    simp [heapAlloc]
  · rw [Heap.lookup_alloc_ne h v rc id hid] at hl
    have := hwf id c0 hl
    simp [heapAlloc]
    omega

theorem newClosed_of_wf (h : Heap) (hwf : h.wf) : NewClosed h h.next := by
  intro id c hl hid
  exact absurd (hwf id c hl) (by omega)

theorem newClosed_compose (hA hB : Heap) (n : Nat)
    (hpres : ∀ i, i < hA.next → hB.lookup i = hA.lookup i)
    (h1 : NewClosed hA n) (h2 : NewClosed hB hA.next) (hn : n ≤ hA.next) : NewClosed hB n := by
  intro id c hl hid j hj
  by_cases hlt : id < hA.next
  · rw [hpres id hlt] at hl
    exact h1 id c hl hid j hj
  · exact le_trans hn (h2 id c hl (by omega) j hj)

theorem newClosed_alloc (h : Heap) (n : Nat) (v : HVal) (rc : Nat)
    (hc : NewClosed h n) (hv : ∀ j ∈ childIds v, n ≤ j) :
    NewClosed (heapAlloc h v rc).1 n := by
  intro id c hl hid j hj
  by_cases hidn : id = h.next
  · subst hidn
    rw [Heap.lookup_alloc_self] at hl
    cases hl
    exact hv j hj
  · rw [Heap.lookup_alloc_ne h v rc id hidn] at hl
    exact hc id c hl hid j hj

theorem newClosed_update_low (h : Heap) (n m : Nat) (c : Cell)
    (hc : NewClosed h n) (hm : m < n) : NewClosed (h.update m c) n := by
  intro id c0 hl hid j hj
  rw [Heap.lookup_update_ne h m id c (by omega)] at hl
  exact hc id c0 hl hid j hj

/-- Postcondition of a heap deep copy: the original cells are untouched, the
result id is fresh (at or above the original allocation counter), the heap
stays well formed, and the region the copy wrote is closed — it points at no
original cell. -/
def CopyPost (h h' : Heap) (cid : Nat) : Prop :=
  (∀ i, i < h.next → h'.lookup i = h.lookup i) ∧ h.next ≤ h'.next ∧
  h.next ≤ cid ∧ cid < h'.next ∧ h'.wf ∧ NewClosed h' h.next ∧
  (∃ c, h'.lookup cid = some c)

/-- Postcondition of copying a run of list nodes. -/
def NodesPost (h h' : Heap) (ids : List Nat) : Prop :=
  (∀ i, i < h.next → h'.lookup i = h.lookup i) ∧ h.next ≤ h'.next ∧
  h'.wf ∧ NewClosed h' h.next ∧
  (∀ id ∈ ids, h.next ≤ id ∧ id < h'.next)

theorem copyPost_alloc (h : Heap) (v : HVal) (hwf : h.wf) (hv : childIds v = []) : CopyPost h (heapAlloc h v 1).1 (heapAlloc h v 1).2 := by
  refine ⟨?_, ?_, ?_, ?_, ?_, ?_, ?_⟩
  · intro i hi
    exact Heap.lookup_alloc_ne h v 1 i (by omega)
  · simp [heapAlloc]
  · simp [heapAlloc]
  · simp [heapAlloc]
  · exact Heap.wf_alloc h v 1 hwf
  · exact newClosed_alloc h h.next v 1 (newClosed_of_wf h hwf) (by simp [hv])
  · exact ⟨⟨1, v⟩, Heap.lookup_alloc_self h v 1⟩


theorem copy_spec : ∀ f : Nat, (∀ h src r, h.wf → obj_copy_h f h src = some r → CopyPost h r.1 r.2) ∧ (∀ h nodes r, h.wf → copyNodes f h nodes = some r → NodesPost h r.1 r.2) := by
  intro f
  induction f with
  | zero =>
      constructor
      · intro h src r _ hcp
        simp [obj_copy_h] at hcp
      · intro h nodes r _ hcp
        simp [copyNodes] at hcp
  | succ f ih =>
      obtain ⟨ihO, ihN⟩ := ih
      constructor
      · intro h src r hwf hcp
        simp only [obj_copy_h] at hcp
        cases hls : h.lookup src with
        | none => rw [hls] at hcp; simp at hcp
        | some c =>
            rw [hls] at hcp
            obtain ⟨rc0, v⟩ := c
            cases v with
            | hchar w =>
                have h2 := Option.some.inj hcp
                subst h2
                exact copyPost_alloc h (.hchar w) hwf rfl
            | hint w =>
                have h2 := Option.some.inj hcp
                subst h2
                exact copyPost_alloc h (.hint w) hwf rfl
            | hfloat w =>
                have h2 := Option.some.inj hcp
                subst h2
                exact copyPost_alloc h (.hfloat w) hwf rfl
            | hstr w =>
                have h2 := Option.some.inj hcp
                subst h2
                exact copyPost_alloc h (.hstr w) hwf rfl
            | hpos w => simp at hcp
            | hnone => simp at hcp
            | hnode sub =>
                cases sub with
                | none => simp at hcp
                | some s =>
                    simp only at hcp
                    exact ihO h s r hwf hcp
            | hlist nodes =>
                simp only at hcp
                cases hcn : copyNodes f h nodes with
                | none => rw [hcn] at hcp; simp at hcp
                | some r1 =>
                    rw [hcn] at hcp
                    obtain ⟨h1, ids⟩ := r1
                    simp only at hcp
                    have h2 := Option.some.inj hcp
                    subst h2
                    obtain ⟨np1, np2, np3, np4, np5⟩ := ihN h nodes (h1, ids) hwf hcn
                    dsimp only at np1 np2 np3 np4 np5
                    refine ⟨?_, ?_, ?_, ?_, ?_, ?_, ?_⟩
                    · intro i hi
                      rw [Heap.lookup_alloc_ne h1 (.hlist ids) 1 i (by omega)]
                      exact np1 i hi
                    · dsimp only [heapAlloc]
                      omega
                    · dsimp only [heapAlloc]
                      omega
                    · dsimp only [heapAlloc]
                      omega
                    · exact Heap.wf_alloc h1 (.hlist ids) 1 np3
                    · refine newClosed_alloc h1 h.next (.hlist ids) 1 np4 ?_
                      intro j hj
                      exact (np5 j hj).1
                    · exact ⟨⟨1, .hlist ids⟩, Heap.lookup_alloc_self h1 (.hlist ids) 1⟩
      · intro h nodes r hwf hcp
        cases nodes with
        | nil =>
            simp only [copyNodes] at hcp
            have h2 := Option.some.inj hcp
            subst h2
            exact ⟨fun i _ => rfl, le_refl _, hwf, newClosed_of_wf h hwf, by simp⟩
        | cons nid rest =>
            simp only [copyNodes] at hcp
            cases hln : h.lookup nid with
            | none => rw [hln] at hcp; simp at hcp
            | some c =>
                rw [hln] at hcp
                obtain ⟨rc0, v⟩ := c
                cases v with
                | hnode sub =>
                    cases sub with
                    | none => simp at hcp
                    | some s =>
                        simp only at hcp
                        cases hco : obj_copy_h f h s with
                        | none => rw [hco] at hcp; simp at hcp
                        | some r1 =>
                            rw [hco] at hcp
                            obtain ⟨h1, cid⟩ := r1
                            simp only at hcp
                            cases hcr : copyNodes f (heapAlloc h1 (.hnode (some cid)) 1).1 rest with
                            | none => rw [hcr] at hcp; simp at hcp
                            | some r2 =>
                                rw [hcr] at hcp
                                obtain ⟨h3, ids2⟩ := r2
                                simp only at hcp
                                have h2 := Option.some.inj hcp
                                subst h2
                                obtain ⟨cp1, cp2, cp3, cp4, cp5, cp6, cp7⟩ := ihO h s (h1, cid) hwf hco
                                dsimp only at cp1 cp2 cp3 cp4 cp5 cp6 cp7
                                have hwf2 : (heapAlloc h1 (.hnode (some cid)) 1).1.wf :=
                                  Heap.wf_alloc h1 (.hnode (some cid)) 1 cp5
                                obtain ⟨np1, np2, np3, np4, np5⟩ := ihN _ rest (h3, ids2) hwf2 hcr
                                dsimp only at np1 np2 np3 np4 np5
                                have hnx2 : (heapAlloc h1 (.hnode (some cid)) 1).1.next = h1.next + 1 := rfl
                                have hid2 : (heapAlloc h1 (.hnode (some cid)) 1).2 = h1.next := rfl
                                rw [hnx2] at np2
                                rw [hnx2] at np5
                                dsimp only [heapAlloc]
                                refine ⟨?_, ?_, ?_, ?_, ?_⟩
                                · intro i hi
                                  rw [np1 i (by rw [hnx2]; omega)]
                                  rw [Heap.lookup_alloc_ne h1 (.hnode (some cid)) 1 i (by omega)]
                                  exact cp1 i hi
                                · omega
                                · exact np3
                                · have hc2 : NewClosed (heapAlloc h1 (.hnode (some cid)) 1).1 h.next := by
                                    refine newClosed_alloc h1 h.next (.hnode (some cid)) 1 cp6 ?_
                                    intro j hj
                                    simp [childIds] at hj
                                    omega
                                  refine newClosed_compose (heapAlloc h1 (.hnode (some cid)) 1).1 h3 h.next np1 hc2 np4 ?_
                                  rw [hnx2]
                                  omega
                                · intro id hid
                                  cases hid with
                                  | head =>
                                      exact ⟨by omega, by omega⟩
                                  | tail _ ht =>
                                      have hr := np5 id ht
                                      exact ⟨by omega, by omega⟩
                | hchar w => simp at hcp
                | hint w => simp at hcp
                | hfloat w => simp at hcp
                | hstr w => simp at hcp
                | hlist w => simp at hcp
                | hpos w => simp at hcp
                | hnone => simp at hcp

theorem readObj_update : ∀ f : Nat, (∀ g n m val cid, NewClosed g n → m < n → n ≤ cid → readObj f (g.update m val) cid = readObj f g cid) ∧ (∀ g n m val ids, NewClosed g n → m < n → (∀ id ∈ ids, n ≤ id) → readNodes f (g.update m val) ids = readNodes f g ids) := by
  intro f
  induction f with
  | zero => exact ⟨fun _ _ _ _ _ _ _ _ => rfl, fun _ _ _ _ _ _ _ _ => rfl⟩
  | succ f ih =>
      obtain ⟨ihO, ihN⟩ := ih
      constructor
      · intro g n m val cid hcl hm hc
        simp only [readObj]
        rw [Heap.lookup_update_ne g m cid val (by omega)]
        cases hl : g.lookup cid with
        | none => rfl
        | some c =>
            obtain ⟨rc0, v⟩ := c
            cases v with
            | hchar w => rfl
            | hint w => rfl
            | hfloat w => rfl
            | hstr w => rfl
            | hpos w => rfl
            | hnone => rfl
            | hlist nodes =>
                dsimp only
                have hch := hcl cid ⟨rc0, .hlist nodes⟩ hl hc
                simp only [childIds] at hch
                rw [ihN g n m val nodes hcl hm hch]
            | hnode sub =>
                cases sub with
                | none => rfl
                | some s =>
                    dsimp only
                    have hch := hcl cid ⟨rc0, .hnode (some s)⟩ hl hc
                    simp only [childIds] at hch
                    rw [ihO g n m val s hcl hm (hch s (by simp))]
      · intro g n m val ids hcl hm hids
        cases ids with
        | nil => rfl
        | cons nid rest =>
            simp only [readNodes]
            have hnid : n ≤ nid := hids nid (by simp)
            rw [Heap.lookup_update_ne g m nid val (by omega)]
            cases hl : g.lookup nid with
            | none => rfl
            | some c =>
                obtain ⟨rc0, v⟩ := c
                cases v with
                | hchar w => rfl
                | hint w => rfl
                | hfloat w => rfl
                | hstr w => rfl
                | hpos w => rfl
                | hnone => rfl
                | hlist w => rfl
                | hnode sub =>
                    cases sub with
                    | none => rfl
                    | some s =>
                        dsimp only
                        have hch := hcl nid ⟨rc0, .hnode (some s)⟩ hl hnid
                        simp only [childIds] at hch
                        rw [ihO g n m val s hcl hm (hch s (by simp))]
                        rw [ihN g n m val rest hcl hm (fun id hid => hids id (by simp [hid]))]

theorem readObj_some_lookup {f : Nat} {h : Heap} {p : Nat} {a : Obj} (hr : readObj f h p = some a) : ∃ c, h.lookup p = some c := by
  cases f with
  | zero => simp [readObj] at hr
  | succ f =>
      simp only [readObj] at hr
      cases hl : h.lookup p with
      | none => rw [hl] at hr; simp at hr
      | some c => exact ⟨c, rfl⟩

/-- C10: when `obj_assign` targets a list node, the node is set to the object
`obj_copy` returns — a deep copy: the node ends up owning a fresh cell id (at
or above the old allocation counter, so it is distinct from every cell of the
assigned value), all pre-existing cells other than the node itself are
untouched, and overwriting any pre-existing cell — in particular any cell of
the source value — does not change the value read back from the stored
element. -/
theorem C10_listnode_assign_deep_copy : ∀ (f : Nat) (h : Heap) (target src : Nat) (h1 : Heap), h.wf → obj_assign_h f h target src = some h1 → ∃ cid rc0, h1.lookup target = some ⟨rc0, .hnode (some cid)⟩ ∧ h.next ≤ cid ∧ (∀ i, i < h.next → i ≠ target → h1.lookup i = h.lookup i) ∧ (∀ m val fr, m < h.next → readObj fr (h1.update m val) cid = readObj fr h1 cid) := by
  intro f h target src h1 hwf has
  simp only [obj_assign_h] at has
  cases hlt : h.lookup target with
  | none => rw [hlt] at has; simp at has
  | some c =>
      rw [hlt] at has
      obtain ⟨rc0, v⟩ := c
      cases v with
      | hchar w => simp at has
      | hint w => simp at has
      | hfloat w => simp at has
      | hstr w => simp at has
      | hlist w => simp at has
      | hpos w => simp at has
      | hnone => simp at has
      | hnode sub =>
          dsimp only at has
          cases hco : obj_copy_h f h src with
          | none => rw [hco] at has; simp at has
          | some r =>
              rw [hco] at has
              obtain ⟨h2, cid⟩ := r
              dsimp only at has
              have h3 := Option.some.inj has
              subst h3
              obtain ⟨cp1, cp2, cp3, cp4, cp5, cp6, cp7⟩ := (copy_spec f).1 h src (h2, cid) hwf hco
              dsimp only at cp1 cp2 cp3 cp4 cp5 cp6 cp7
              have htlt : target < h.next := hwf target _ hlt
              refine ⟨cid, rc0, ?_, cp3, ?_, ?_⟩
              · exact Heap.lookup_update_self h2 target ⟨rc0, .hnode (some cid)⟩
              · intro i hi hit
                rw [Heap.lookup_update_ne h2 target i _ (fun hh => hit hh.symm)]
                exact cp1 i hi
              · intro m val fr hm
                have hcl1 : NewClosed (h2.update target ⟨rc0, .hnode (some cid)⟩) h.next :=
                  newClosed_update_low h2 h.next target ⟨rc0, .hnode (some cid)⟩ cp6 htlt
                exact (readObj_update fr).1 _ h.next m val cid hcl1 hm cp3

/-- Heap of the C10 witness: the none singleton, a list `[5]` (a node at id 2
owning the int 5 at id 1, the list itself at id 3) and a separate source
value int 7 at id 4. -/
def exHeapA : Heap :=
  ⟨5, [(0, ⟨1, .hnone⟩), (1, ⟨1, .hint 5⟩), (2, ⟨1, .hnode (some 1)⟩), (3, ⟨1, .hlist [2]⟩), (4, ⟨1, .hint 7⟩)]⟩

/-- Heap after the C10 witness assignment: the copy of the int 7 sits in the
fresh cell 5 and the node at id 2 now owns it. -/
def exHeapA1 : Heap :=
  ⟨6, [(2, ⟨1, .hnode (some 5)⟩), (5, ⟨1, .hint 7⟩), (0, ⟨1, .hnone⟩), (1, ⟨1, .hint 5⟩), (2, ⟨1, .hnode (some 1)⟩), (3, ⟨1, .hlist [2]⟩), (4, ⟨1, .hint 7⟩)]⟩

theorem C10_witness : ∃ cid rc0, exHeapA1.lookup 2 = some ⟨rc0, .hnode (some cid)⟩ ∧ exHeapA.next ≤ cid ∧ (∀ i, i < exHeapA.next → i ≠ 2 → exHeapA1.lookup i = exHeapA.lookup i) ∧ (∀ m val fr, m < exHeapA.next → readObj fr (exHeapA1.update m val) cid = readObj fr exHeapA1 cid) :=
  C10_listnode_assign_deep_copy 10 exHeapA 2 4 exHeapA1 (Heap.wf_of_cells exHeapA (by decide)) rfl

/-- C8 as amended: a well-formed heap's `obj_alloc` of any type other than
none returns a fresh object with reference count exactly 1; `obj_alloc` of
the none type returns the shared singleton with its reference count
incremented (so it exceeds 1); and the `==` operator (`obj_eql`) either
fails or returns a freshly allocated int object with reference count 1 that
is distinct from both operands, leaving every existing cell unchanged. -/
theorem C8_alloc_refcount : ∀ h : Heap, h.wf → (∀ t : ObjType, t ≠ .NONE_T → (obj_alloc h t).1.lookup (obj_alloc h t).2 = some ⟨1, typeDefault t⟩ ∧ h.lookup (obj_alloc h t).2 = Option.none ∧ (obj_alloc h t).1.wf) ∧ (∀ c : Cell, h.lookup NONE_ID = some c → (obj_alloc h .NONE_T).2 = NONE_ID ∧ (obj_alloc h .NONE_T).1.lookup NONE_ID = some ⟨c.rc + 1, c.val⟩) ∧ (∀ f p q h1 r, obj_eql_h f h p q = some (h1, r) → (∃ k, h1.lookup r = some ⟨1, .hint k⟩) ∧ h.lookup r = Option.none ∧ r ≠ p ∧ r ≠ q ∧ (∀ i, i ≠ r → h1.lookup i = h.lookup i)) := by
  intro h hwf
  refine ⟨?_, ?_, ?_⟩
  · intro t ht
    have halloc : obj_alloc h t = heapAlloc h (typeDefault t) 1 := by
      simp [obj_alloc, ht]
    rw [halloc]
    exact ⟨Heap.lookup_alloc_self h (typeDefault t) 1, Heap.lookup_next_none h hwf, Heap.wf_alloc h (typeDefault t) 1 hwf⟩
  · intro c hl
    have halloc : obj_alloc h .NONE_T = (h.update NONE_ID ⟨c.rc + 1, c.val⟩, NONE_ID) := by
      simp [obj_alloc, hl]
    rw [halloc]
    exact ⟨rfl, Heap.lookup_update_self h NONE_ID ⟨c.rc + 1, c.val⟩⟩
  · intro f p q h1 r heql
    simp only [obj_eql_h] at heql
    cases hrp : readObj f h p with
    | none => rw [hrp] at heql; simp at heql
    | some a =>
        rw [hrp] at heql
        cases hrq : readObj f h q with
        | none => rw [hrq] at heql; simp at heql
        | some b =>
            rw [hrq] at heql
            obtain ⟨cp, hlp⟩ := readObj_some_lookup hrp
            obtain ⟨cq, hlq⟩ := readObj_some_lookup hrq
            have hplt : p < h.next := hwf p cp hlp
            have hqlt : q < h.next := hwf q cq hlq
            dsimp only at heql
            cases he : obj_eql a b with
            | error e => rw [he] at heql; simp at heql
            | ok v =>
                rw [he] at heql
                cases v with
                | int k =>
                    dsimp only at heql
                    have h3 := Option.some.inj heql
                    have h4 : h1 = (heapAlloc h (.hint k) 1).1 := (congrArg Prod.fst h3).symm
                    have h5 : r = h.next := (congrArg Prod.snd h3).symm
                    subst h4
                    subst h5
                    refine ⟨⟨k, Heap.lookup_alloc_self h (.hint k) 1⟩, Heap.lookup_next_none h hwf, by omega, by omega, ?_⟩
                    intro i hi
                    exact Heap.lookup_alloc_ne h (.hint k) 1 i hi
                | char w => simp at heql
                | float w => simp at heql
                | str w => simp at heql
                | list w => simp at heql
                | listnode w => simp at heql
                | position w => simp at heql
                | none => simp at heql

/-- Heap of the C8 witness's operator part: two separate int 4 objects. -/
def exHeapB : Heap :=
  ⟨3, [(0, ⟨1, .hnone⟩), (1, ⟨1, .hint 4⟩), (2, ⟨1, .hint 4⟩)]⟩

theorem C8_witness : ((obj_alloc initHeap .INT_T).1.lookup (obj_alloc initHeap .INT_T).2 = some ⟨1, typeDefault .INT_T⟩ ∧ initHeap.lookup (obj_alloc initHeap .INT_T).2 = Option.none ∧ (obj_alloc initHeap .INT_T).1.wf) ∧ ((∃ k, (heapAlloc exHeapB (.hint 1) 1).1.lookup 3 = some ⟨1, .hint k⟩) ∧ exHeapB.lookup 3 = Option.none ∧ (3 : Nat) ≠ 1 ∧ (3 : Nat) ≠ 2 ∧ (∀ i, i ≠ 3 → (heapAlloc exHeapB (.hint 1) 1).1.lookup i = exHeapB.lookup i)) :=
  ⟨((C8_alloc_refcount initHeap (Heap.wf_of_cells initHeap (by decide))).1 .INT_T (by decide)),
   ((C8_alloc_refcount exHeapB (Heap.wf_of_cells exHeapB (by decide))).2.2 3 1 2 (heapAlloc exHeapB (.hint 1) 1).1 3 rfl)⟩

/-- C8 counterexample: at interpreter start `obj_alloc(NONE_T)` returns the
none singleton with reference count 2, not 1 — `none` is statically
initialized with count 1 and `obj_alloc` increments it once more. -/
theorem C8_counterexample : (obj_alloc initHeap .NONE_T).2 = NONE_ID ∧ (obj_alloc initHeap .NONE_T).1.lookup NONE_ID = some ⟨2, .hnone⟩ ∧ (obj_alloc initHeap .NONE_T).1.lookup ((obj_alloc initHeap .NONE_T).2) ≠ some ⟨1, .hnone⟩ := by
  refine ⟨rfl, rfl, ?_⟩
  decide

/-! ## Parser / statement interpreter

The statement interpreter of parser.c over a token stream.  The scanner and
reader are modelled by a fixed token list and a cursor: `scanner.next()` is
cursor + 1, `reader.save()` captures the cursor, `reader.jump` restores it
(positions in parser.c are only ever used this way).  Expression evaluation
(expression.c, absent from the sources) is modelled from the spec's grammar
in §4.5.14; function calls inside expressions, `input` and `import` need the
reader/stdin machinery outside this model and make evaluation undefined
(`Option.none`), so no property below depends on them. -/

/-- Token kinds of the scanner interface that parser.c consumes. -/
inductive Tok where
  | NEWLINE
  | INDENT
  | DEDENT
  | ENDMARKER
  | IF
  | ELSE
  | WHILE
  | DO
  | FOR
  | IN
  | BREAK
  | CONTINUE
  | PASS
  | RETURN
  | PRINT
  | DEFCHAR
  | DEFINT
  | DEFFLOAT
  | DEFSTR
  | DEFLIST
  | DEFFUNC
  | IMPORT
  | INPUT
  | LPAR
  | RPAR
  | COMMA
  | EQUAL
  | COLON
  | LBRACKET
  | RBRACKET
  | PLUS
  | MINUS
  | STAR
  | SLASH
  | PERCENT
  | EQEQ
  | NEQ
  | LSS
  | LEQ
  | GTR
  | GEQ
  | AND
  | OR
  | NOT
  | IDENT (x : String)
  | INTLIT (n : Int)
  | FLOATLIT (q : Rat)
  | CHARLIT (c : Int)
  | STRLIT (s : List Char)
  deriving DecidableEq, Repr

/-- Current token at a cursor position; past the end the scanner yields
ENDMARKER forever. -/
def tokAt (toks : List Tok) (p : Nat) : Tok :=
  toks.getD p .ENDMARKER

theorem tokAt_of_le (toks : List Tok) (p : Nat) (h : toks.length ≤ p) : tokAt toks p = .ENDMARKER := by
  unfold tokAt
  exact List.getD_eq_default toks Tok.ENDMARKER h

theorem tokAt_drop (toks : List Tok) : ∀ p : Nat, tokAt toks p = (toks.drop p).headD .ENDMARKER := by
  induction toks with
  | nil => intro p; simp [tokAt]
  | cons t rest ih =>
      intro p
      cases p with
      | zero => simp [tokAt]
      | succ p => simp [tokAt, List.getD]

/-- Level change a token causes in the INDENT/DEDENT scan loops. -/
def lvlDelta : Tok → Int
  | .INDENT => 1
  | .DEDENT => -1
  | _ => 0

/-- Net INDENT/DEDENT level change over a token run. -/
def net (l : List Tok) : Int :=
  (l.map lvlDelta).sum

/-- Steps the token-skipping loop of parser.c takes over the remaining
tokens: the `do { next(); level adjust } while (level != 0 and token !=
ENDMARKER)` of `skip_block` and of `block`'s break/continue fast-forward.
The list holds the tokens after the current one; the result is how many
positions the cursor advances before the loop stops. -/
def ffList : Int → List Tok → Nat
  | _, [] => 1
  | level, t :: rest =>
      let level1 := level + lvlDelta t
      if level1 ≠ 0 ∧ t ≠ .ENDMARKER then 1 + ffList level1 rest else 1

/-- Position where the skipping loop stops when started with the cursor at
`p` and nesting level `level`: the matching DEDENT (or the ENDMARKER). -/
def ffLoop (toks : List Tok) (level : Int) (p : Nat) : Nat :=
  p + ffList level (toks.drop (p + 1))

/-- Function `skip_block` of parser.c: expect NEWLINE, expect INDENT, scan to
the DEDENT closing the block (level bookkeeping as in `ffList`), then advance
one more token.  The result is the position after the block; a missing
NEWLINE or INDENT is a SyntaxError (`Option.none`). -/
def skip_block (toks : List Tok) (p : Nat) : Option Nat :=
  if tokAt toks p = .NEWLINE then
    if tokAt toks (p + 1) = .INDENT then some (ffLoop toks 1 (p + 2) + 1)
    else Option.none
  else Option.none

/-- Well-formed block body: nonempty, beginning with an ordinary token (not
INDENT, DEDENT or ENDMARKER), containing no ENDMARKER, with balanced
INDENT/DEDENT nesting that never drops below the block's own level. -/
def GoodBody (body : List Tok) : Prop :=
  body ≠ [] ∧
  (∀ t, body.head? = some t → t ≠ .INDENT ∧ t ≠ .DEDENT ∧ t ≠ .ENDMARKER) ∧
  .ENDMARKER ∉ body ∧
  net body = 0 ∧
  (∀ n, 0 ≤ net (body.take n))

theorem net_nil : net [] = 0 := rfl

theorem net_cons (t : Tok) (l : List Tok) : net (t :: l) = lvlDelta t + net l := by
  simp [net]

theorem ffList_closes : ∀ (seg : List Tok) (rest : List Tok) (L : Int), 1 ≤ L → (∀ n, n ≤ seg.length → 1 ≤ L + net (seg.take n)) → L + net seg = 1 → .ENDMARKER ∉ seg → ffList L (seg ++ .DEDENT :: rest) = seg.length + 1 := by
  intro seg
  induction seg with
  | nil =>
      intro rest L hL hpre hnet hend
      have hL1 : L = 1 := by
        rw [net_nil] at hnet
        omega
      subst hL1
      simp [ffList, lvlDelta]
  | cons t seg ih =>
      intro rest L hL hpre hnet hend
      have h1 : 1 ≤ L + lvlDelta t := by
        have := hpre 1 (by simp)
        simpa [net_cons, net_nil] using this
      have ht : t ≠ .ENDMARKER := by
        intro hc
        exact hend (by simp [hc])
      rw [List.cons_append]
      show (if L + lvlDelta t ≠ 0 ∧ t ≠ .ENDMARKER then 1 + ffList (L + lvlDelta t) (seg ++ .DEDENT :: rest) else 1) = (t :: seg).length + 1
      rw [if_pos ⟨by omega, ht⟩]
      rw [ih rest (L + lvlDelta t) h1 ?_ ?_ ?_]
      · simp
        omega
      · intro n hn
        have := hpre (n + 1) (by simp; omega)
        rw [List.take_succ_cons, net_cons] at this
        omega
      · rw [net_cons] at hnet
        omega
      · intro hc
        exact hend (by simp [hc])

theorem drop_len_lt {α : Type} (l : List α) (p : Nat) (x : α) (r : List α) (h : l.drop p = x :: r) : p < l.length := by
  by_contra hc
  rw [List.drop_eq_nil_of_le (by omega)] at h
  exact List.noConfusion h

theorem skip_block_past (toks : List Tok) (p : Nat) (body rest : List Tok) (hdrop : toks.drop p = .NEWLINE :: .INDENT :: (body ++ .DEDENT :: rest)) (hgood : GoodBody body) : skip_block toks p = some (p + body.length + 3) := by
  obtain ⟨hne, hhead, hend, hnet, hpre⟩ := hgood
  have h0 : tokAt toks p = .NEWLINE := by
    rw [tokAt_drop, hdrop]
    rfl
  have hd1 : toks.drop (p + 1) = .INDENT :: (body ++ .DEDENT :: rest) := by
    have : toks.drop (p + 1) = (toks.drop p).drop 1 := by
      rw [List.drop_drop]
    rw [this, hdrop]
    rfl
  have h1 : tokAt toks (p + 1) = .INDENT := by
    rw [tokAt_drop, hd1]
    rfl
  obtain ⟨bh, bt, rfl⟩ : ∃ bh bt, body = bh :: bt := by
    cases body with
    | nil => exact absurd rfl hne
    | cons a b => exact ⟨a, b, rfl⟩
  have hd3 : toks.drop (p + 3) = bt ++ .DEDENT :: rest := by
    have : toks.drop (p + 3) = (toks.drop (p + 1)).drop 2 := by
      rw [List.drop_drop]
    rw [this, hd1]
    rfl
  obtain ⟨hbh1, hbh2, hbh3⟩ := hhead bh rfl
  have hdel : lvlDelta bh = 0 := by
    cases bh <;> simp [lvlDelta] at hbh1 hbh2 ⊢
  have hclose : ffList 1 (bt ++ .DEDENT :: rest) = bt.length + 1 := by
    refine ffList_closes bt rest 1 le_rfl ?_ ?_ ?_
    · intro n hn
      have := hpre (n + 1)
      rw [List.take_succ_cons, net_cons, hdel] at this
      omega
    · rw [net_cons, hdel] at hnet
      omega
    · intro hc
      exact hend (by simp [hc])
  simp only [skip_block, h0, h1, if_pos]
  rw [ffLoop]
  have : p + 2 + 1 = p + 3 := by omega
  rw [this, hd3, hclose]
  simp
  omega

/-- Modelled from the spec: the identifier table (identifier.c is absent).
One frame of name → binding pairs; a declared identifier whose object was
released by `unbind` maps to nothing until bound again. -/
abbrev Env := List (String × Option Obj)

/-- Search for a name (`identifier.search`). -/
def envLookup : Env → String → Option (Option Obj)
  | [], _ => Option.none
  | (y, v) :: rest, x => if y = x then some v else envLookup rest x

/-- Presence test backing `identifier.add`'s duplicate check. -/
def envHas (e : Env) (x : String) : Bool :=
  (envLookup e x).isSome

/-- Insertion of a new identifier (`identifier.add` followed, when a value is
given, by `identifier.bind`). -/
def envAdd (e : Env) (x : String) (v : Option Obj) : Env :=
  (x, v) :: e

/-- Rebinding of an existing identifier (`identifier.bind`). -/
def envBind : Env → String → Option Obj → Env
  | [], _, _ => []
  | (y, w) :: rest, x, v => if y = x then (y, v) :: rest else (y, w) :: envBind rest x v

/-- Release of an identifier's object (`identifier.unbind`). -/
def envUnbind (e : Env) (x : String) : Env :=
  envBind e x Option.none

/-- Result of evaluating one expression: its value, the new cursor position
and the identifier table (assignments rebind). -/
abbrev ERes := Option (Obj × Nat × Env)

set_option maxHeartbeats 1000000

/-- Name carried by an IDENTIFIER token. -/
def tokIdent : Tok → Option String
  | .IDENT x => some x
  | _ => Option.none

/-- Value carried by a literal token. -/
def tokLit : Tok → Option Obj
  | .INTLIT n => some (.int n)
  | .FLOATLIT q => some (.float q)
  | .CHARLIT c => some (.char c)
  | .STRLIT s => some (.str s)
  | _ => Option.none

mutual

/-- Modelled from the spec (§4.5.14, expression.c is absent): `comma_expr` —
one or more assignment expressions separated by commas; the value is the
last one's. -/
def comma_expr : Nat → List Tok → Nat → Env → ERes
  | 0, _, _, _ => Option.none
  | f+1, toks, p, e =>
      match assignment_expr f toks p e with
      | some (v, p1, e1) => commaLoop f toks v p1 e1
      | Option.none => Option.none
termination_by structural f _toks _p _e => f

/-- Continuation of `comma_expr` after one value. -/
def commaLoop : Nat → List Tok → Obj → Nat → Env → ERes
  | 0, _, _, _, _ => Option.none
  | f+1, toks, v, p, e =>
      if tokAt toks p = .COMMA then
        match assignment_expr f toks (p + 1) e with
        | some (w, p1, e1) => commaLoop f toks w p1 e1
        | Option.none => Option.none
      else some (v, p, e)
termination_by structural f _toks _v _p _e => f

/-- Modelled from the spec: `assignment_expr` — logical-or, with a
right-associative `=` when the left side is an identifier; the assignment
stores with coercion to the target's type (`obj_assign`) and yields the
stored value.  An undeclared or unbound identifier on the left is a
NameError. -/
def assignment_expr : Nat → List Tok → Nat → Env → ERes
  | 0, _, _, _ => Option.none
  | f+1, toks, p, e =>
      match tokIdent (tokAt toks p) with
      | some x =>
          if tokAt toks (p + 1) = .EQUAL then
            match assignment_expr f toks (p + 2) e with
            | some (v, p1, e1) =>
                match envLookup e1 x with
                | some (some cur) =>
                    match obj_assign cur v with
                    | .ok stored => some (stored, p1, envBind e1 x (some stored))
                    | .error _ => Option.none
                | _ => Option.none
            | Option.none => Option.none
          else or_expr f toks p e
      | Option.none => or_expr f toks p e
termination_by structural f _toks _p _e => f

/-- Modelled from the spec: left-associative `or`. -/
def or_expr : Nat → List Tok → Nat → Env → ERes
  | 0, _, _, _ => Option.none
  | f+1, toks, p, e =>
      match and_expr f toks p e with
      | some (v, p1, e1) => orLoop f toks v p1 e1
      | Option.none => Option.none
termination_by structural f _toks _p _e => f

def orLoop : Nat → List Tok → Obj → Nat → Env → ERes
  | 0, _, _, _, _ => Option.none
  | f+1, toks, v, p, e =>
      if tokAt toks p = .OR then
        match and_expr f toks (p + 1) e with
        | some (w, p1, e1) =>
            match obj_or v w with
            | .ok r => orLoop f toks r p1 e1
            | .error _ => Option.none
        | Option.none => Option.none
      else some (v, p, e)
termination_by structural f _toks _v _p _e => f

/-- Modelled from the spec: left-associative `and`. -/
def and_expr : Nat → List Tok → Nat → Env → ERes
  | 0, _, _, _ => Option.none
  | f+1, toks, p, e =>
      match eq_expr f toks p e with
      | some (v, p1, e1) => andLoop f toks v p1 e1
      | Option.none => Option.none
termination_by structural f _toks _p _e => f

def andLoop : Nat → List Tok → Obj → Nat → Env → ERes
  | 0, _, _, _, _ => Option.none
  | f+1, toks, v, p, e =>
      if tokAt toks p = .AND then
        match eq_expr f toks (p + 1) e with
        | some (w, p1, e1) =>
            match obj_and v w with
            | .ok r => andLoop f toks r p1 e1
            | .error _ => Option.none
        | Option.none => Option.none
      else some (v, p, e)
termination_by structural f _toks _v _p _e => f

/-- Modelled from the spec: `== != <>`, chained left to right (the scanner
maps `<>` to the same token as `!=`). -/
def eq_expr : Nat → List Tok → Nat → Env → ERes
  | 0, _, _, _ => Option.none
  | f+1, toks, p, e =>
      match rel_expr f toks p e with
      | some (v, p1, e1) => eqLoop f toks v p1 e1
      | Option.none => Option.none
termination_by structural f _toks _p _e => f

def eqLoop : Nat → List Tok → Obj → Nat → Env → ERes
  | 0, _, _, _, _ => Option.none
  | f+1, toks, v, p, e =>
      if tokAt toks p = .EQEQ then
        match rel_expr f toks (p + 1) e with
        | some (w, p1, e1) =>
            match obj_eql v w with
            | .ok r => eqLoop f toks r p1 e1
            | .error _ => Option.none
        | Option.none => Option.none
      else if tokAt toks p = .NEQ then
        match rel_expr f toks (p + 1) e with
        | some (w, p1, e1) =>
            match obj_neq v w with
            | .ok r => eqLoop f toks r p1 e1
            | .error _ => Option.none
        | Option.none => Option.none
      else some (v, p, e)
termination_by structural f _toks _v _p _e => f

/-- Modelled from the spec: `< <= > >= in`.  An `in` whose loop never ran
returns the C NULL pointer; its use here (as anywhere in expression.c)
dereferences it, so evaluation is undefined then. -/
def rel_expr : Nat → List Tok → Nat → Env → ERes
  | 0, _, _, _ => Option.none
  | f+1, toks, p, e =>
      match add_expr f toks p e with
      | some (v, p1, e1) => relLoop f toks v p1 e1
      | Option.none => Option.none
termination_by structural f _toks _p _e => f

def relLoop : Nat → List Tok → Obj → Nat → Env → ERes
  | 0, _, _, _, _ => Option.none
  | f+1, toks, v, p, e =>
      if tokAt toks p = .LSS then
        match add_expr f toks (p + 1) e with
        | some (w, p1, e1) =>
            match obj_lss v w with
            | .ok r => relLoop f toks r p1 e1
            | .error _ => Option.none
        | Option.none => Option.none
      else if tokAt toks p = .LEQ then
        match add_expr f toks (p + 1) e with
        | some (w, p1, e1) =>
            match obj_leq v w with
            | .ok r => relLoop f toks r p1 e1
            | .error _ => Option.none
        | Option.none => Option.none
      else if tokAt toks p = .GTR then
        match add_expr f toks (p + 1) e with
        | some (w, p1, e1) =>
            match obj_gtr v w with
            | .ok r => relLoop f toks r p1 e1
            | .error _ => Option.none
        | Option.none => Option.none
      else if tokAt toks p = .GEQ then
        match add_expr f toks (p + 1) e with
        | some (w, p1, e1) =>
            match obj_geq v w with
            | .ok r => relLoop f toks r p1 e1
            | .error _ => Option.none
        | Option.none => Option.none
      else if tokAt toks p = .IN then
        match add_expr f toks (p + 1) e with
        | some (w, p1, e1) =>
            match obj_in v w with
            | .ok (some r) => relLoop f toks r p1 e1
            | _ => Option.none
        | Option.none => Option.none
      else some (v, p, e)
termination_by structural f _toks _v _p _e => f

/-- Modelled from the spec: `+ -`. -/
def add_expr : Nat → List Tok → Nat → Env → ERes
  | 0, _, _, _ => Option.none
  | f+1, toks, p, e =>
      match mul_expr f toks p e with
      | some (v, p1, e1) => addLoop f toks v p1 e1
      | Option.none => Option.none
termination_by structural f _toks _p _e => f

def addLoop : Nat → List Tok → Obj → Nat → Env → ERes
  | 0, _, _, _, _ => Option.none
  | f+1, toks, v, p, e =>
      if tokAt toks p = .PLUS then
        match mul_expr f toks (p + 1) e with
        | some (w, p1, e1) =>
            match obj_add v w with
            | .ok r => addLoop f toks r p1 e1
            | .error _ => Option.none
        | Option.none => Option.none
      else if tokAt toks p = .MINUS then
        match mul_expr f toks (p + 1) e with
        | some (w, p1, e1) =>
            match obj_sub v w with
            | .ok r => addLoop f toks r p1 e1
            | .error _ => Option.none
        | Option.none => Option.none
      else some (v, p, e)
termination_by structural f _toks _v _p _e => f

/-- Modelled from the spec: `* / %`. -/
def mul_expr : Nat → List Tok → Nat → Env → ERes
  | 0, _, _, _ => Option.none
  | f+1, toks, p, e =>
      match unary_expr f toks p e with
      | some (v, p1, e1) => mulLoop f toks v p1 e1
      | Option.none => Option.none
termination_by structural f _toks _p _e => f

def mulLoop : Nat → List Tok → Obj → Nat → Env → ERes
  | 0, _, _, _, _ => Option.none
  | f+1, toks, v, p, e =>
      if tokAt toks p = .STAR then
        match unary_expr f toks (p + 1) e with
        | some (w, p1, e1) =>
            match obj_mult v w with
            | .ok r => mulLoop f toks r p1 e1
            | .error _ => Option.none
        | Option.none => Option.none
      else if tokAt toks p = .SLASH then
        match unary_expr f toks (p + 1) e with
        | some (w, p1, e1) =>
            match obj_divs v w with
            | .ok r => mulLoop f toks r p1 e1
            | .error _ => Option.none
        | Option.none => Option.none
      else if tokAt toks p = .PERCENT then
        match unary_expr f toks (p + 1) e with
        | some (w, p1, e1) =>
            match obj_mod v w with
            | .ok r => mulLoop f toks r p1 e1
            | .error _ => Option.none
        | Option.none => Option.none
      else some (v, p, e)
termination_by structural f _toks _v _p _e => f

/-- Modelled from the spec: unary prefix `- + !`; `+` returns a copy. -/
def unary_expr : Nat → List Tok → Nat → Env → ERes
  | 0, _, _, _ => Option.none
  | f+1, toks, p, e =>
      if tokAt toks p = .MINUS then
        match unary_expr f toks (p + 1) e with
        | some (v, p1, e1) =>
            match obj_invert v with
            | .ok r => some (r, p1, e1)
            | .error _ => Option.none
        | Option.none => Option.none
      else if tokAt toks p = .PLUS then
        match unary_expr f toks (p + 1) e with
        | some (v, p1, e1) =>
            match obj_copy v with
            | .ok r => some (r, p1, e1)
            | .error _ => Option.none
        | Option.none => Option.none
      else if tokAt toks p = .NOT then
        match unary_expr f toks (p + 1) e with
        | some (v, p1, e1) =>
            match obj_negate v with
            | .ok r => some (r, p1, e1)
            | .error _ => Option.none
        | Option.none => Option.none
      else subscript_expr f toks p e
termination_by structural f _toks _p _e => f

/-- Modelled from the spec: a primary with subscripts `[i]` or slices
`[a:b]` applied postfix. -/
def subscript_expr : Nat → List Tok → Nat → Env → ERes
  | 0, _, _, _ => Option.none
  | f+1, toks, p, e =>
      match primary f toks p e with
      | some (v, p1, e1) => subLoop f toks v p1 e1
      | Option.none => Option.none
termination_by structural f _toks _p _e => f

def subLoop : Nat → List Tok → Obj → Nat → Env → ERes
  | 0, _, _, _, _ => Option.none
  | f+1, toks, v, p, e =>
      if tokAt toks p = .LBRACKET then
        match assignment_expr f toks (p + 1) e with
        | some (i1, p1, e1) =>
            if tokAt toks p1 = .COLON then
              match assignment_expr f toks (p1 + 1) e1 with
              | some (i2, p2, e2) =>
                  if tokAt toks p2 = .RBRACKET then
                    match obj_as_int i1, obj_as_int i2 with
                    | .ok a, .ok b =>
                        match obj_slice v a b with
                        | .ok r => subLoop f toks r (p2 + 1) e2
                        | .error _ => Option.none
                    | _, _ => Option.none
                  else Option.none
              | Option.none => Option.none
            else if tokAt toks p1 = .RBRACKET then
              match obj_as_int i1 with
              | .ok a =>
                  match obj_item v a with
                  | .ok r => subLoop f toks r (p1 + 1) e1
                  | .error _ => Option.none
              | .error _ => Option.none
            else Option.none
        | Option.none => Option.none
      else some (v, p, e)
termination_by structural f _toks _v _p _e => f

/-- Modelled from the spec: a primary — a literal, a parenthesized
expression, or an identifier load.  A call `IDENTIFIER(args)` jumps into the
function's tokens via the reader and is outside this statement model, so
evaluation is undefined there; an undeclared identifier is a NameError. -/
def primary : Nat → List Tok → Nat → Env → ERes
  | 0, _, _, _ => Option.none
  | f+1, toks, p, e =>
      match tokLit (tokAt toks p) with
      | some v => some (v, p + 1, e)
      | Option.none =>
          if tokAt toks p = .LPAR then
            match comma_expr f toks (p + 1) e with
            | some (v, p1, e1) =>
                if tokAt toks p1 = .RPAR then some (v, p1 + 1, e1) else Option.none
            | Option.none => Option.none
          else
            match tokIdent (tokAt toks p) with
            | some x =>
                if tokAt toks (p + 1) = .LPAR then Option.none
                else
                  match envLookup e x with
                  | some (some v) => some (v, p + 1, e)
                  | _ => Option.none
            | Option.none => Option.none
termination_by structural f _toks _p _e => f

end

/-- Interpreter state of parser.c's statement layer: the token cursor, the
two loop-control flags (`do_break`, `do_continue`), the identifier table and
the values `print` wrote so far. -/
structure PState where
  pos : Nat
  brk : Bool
  cont : Bool
  env : Env
  out : List Obj

/-- Outcome of executing statements: normal continuation, or the non-local
transfer a `return` statement makes (the longjmp to `function_call`, or to
`main` at top level) carrying the return value. -/
inductive Res where
  | norm (σ : PState)
  | ret (σ : PState) (v : Obj)

/-- Function `condition` of parser.c: evaluate a comma expression and test it
as a bool (`obj_as_bool`; a non-numeric value is a ValueError). -/
def condition (f : Nat) (toks : List Tok) (σ : PState) : Option (Bool × PState) :=
  match comma_expr f toks σ.pos σ.env with
  | some (v, p1, e1) =>
      match obj_as_bool v with
      | .ok b => some (b, ⟨p1, σ.brk, σ.cont, e1, σ.out⟩)
      | .error _ => Option.none
  | Option.none => Option.none

/-- Modelled from the spec: the default initial value `obj_alloc` gives a
declared variable — numeric 0, empty string/list. -/
def defaultObj : ObjType → Obj
  | .CHAR_T => .char 0
  | .INT_T => .int 0
  | .FLOAT_T => .float 0
  | .STR_T => .str []
  | .LIST_T => .list []
  | _ => .none

/-- Distance to the next NEWLINE or ENDMARKER (the signature-line scan of
`skip_function`). -/
def scanLen : List Tok → Nat
  | [] => 0
  | t :: rest => if t = .NEWLINE ∨ t = .ENDMARKER then 0 else 1 + scanLen rest

/-- Cursor position of the next NEWLINE or ENDMARKER at or after `p`. -/
def scanToNewline (toks : List Tok) (p : Nat) : Nat :=
  p + scanLen (toks.drop p)

/-- Function `skip_function` of parser.c: expect IDENTIFIER, expect LPAR,
scan to the NEWLINE ending the signature line, then skip the block. -/
def skip_function (toks : List Tok) (p : Nat) : Option Nat :=
  match tokIdent (tokAt toks p) with
  | some _ =>
      if tokAt toks (p + 1) = .LPAR then skip_block toks (scanToNewline toks (p + 2))
      else Option.none
  | Option.none => Option.none

mutual

/-- Function `statement` of parser.c: one token of lookahead dispatches the
construct; `break` and `continue` set their pending flags; ENDMARKER is a
no-op; anything unrecognized is an expression statement.  `input` and
`import` need stdin and the reader's file stack, which are outside this
model, so execution is undefined there. -/
def statement : Nat → List Tok → PState → Option Res
  | 0, _, _ => Option.none
  | f+1, toks, σ =>
      if tokAt toks σ.pos = .DEFCHAR then variable_declaration f toks .CHAR_T ⟨σ.pos + 1, σ.brk, σ.cont, σ.env, σ.out⟩
      else if tokAt toks σ.pos = .DEFINT then variable_declaration f toks .INT_T ⟨σ.pos + 1, σ.brk, σ.cont, σ.env, σ.out⟩
      else if tokAt toks σ.pos = .DEFFLOAT then variable_declaration f toks .FLOAT_T ⟨σ.pos + 1, σ.brk, σ.cont, σ.env, σ.out⟩
      else if tokAt toks σ.pos = .DEFSTR then variable_declaration f toks .STR_T ⟨σ.pos + 1, σ.brk, σ.cont, σ.env, σ.out⟩
      else if tokAt toks σ.pos = .DEFLIST then variable_declaration f toks .LIST_T ⟨σ.pos + 1, σ.brk, σ.cont, σ.env, σ.out⟩
      else if tokAt toks σ.pos = .DEFFUNC then
        match skip_function toks (σ.pos + 1) with
        | some p => some (.norm ⟨p, σ.brk, σ.cont, σ.env, σ.out⟩)
        | Option.none => Option.none
      else if tokAt toks σ.pos = .FOR then for_stmnt f toks ⟨σ.pos + 1, σ.brk, σ.cont, σ.env, σ.out⟩
      else if tokAt toks σ.pos = .DO then do_stmnt f toks ⟨σ.pos + 1, σ.brk, σ.cont, σ.env, σ.out⟩
      else if tokAt toks σ.pos = .IF then if_stmnt f toks ⟨σ.pos + 1, σ.brk, σ.cont, σ.env, σ.out⟩
      else if tokAt toks σ.pos = .IMPORT then Option.none
      else if tokAt toks σ.pos = .INPUT then Option.none
      else if tokAt toks σ.pos = .PASS then
        if tokAt toks (σ.pos + 1) = .NEWLINE then some (.norm ⟨σ.pos + 2, σ.brk, σ.cont, σ.env, σ.out⟩)
        else Option.none
      else if tokAt toks σ.pos = .PRINT then print_stmnt f toks ⟨σ.pos + 1, σ.brk, σ.cont, σ.env, σ.out⟩
      else if tokAt toks σ.pos = .RETURN then return_stmt f toks ⟨σ.pos + 1, σ.brk, σ.cont, σ.env, σ.out⟩
      else if tokAt toks σ.pos = .DEDENT then return_stmt f toks ⟨σ.pos + 1, σ.brk, σ.cont, σ.env, σ.out⟩
      else if tokAt toks σ.pos = .WHILE then while_stmnt f toks ⟨σ.pos + 1, σ.brk, σ.cont, σ.env, σ.out⟩
      else if tokAt toks σ.pos = .BREAK then some (.norm ⟨σ.pos + 1, true, σ.cont, σ.env, σ.out⟩)
      else if tokAt toks σ.pos = .CONTINUE then some (.norm ⟨σ.pos + 1, σ.brk, true, σ.env, σ.out⟩)
      else if tokAt toks σ.pos = .ENDMARKER then some (.norm ⟨σ.pos + 1, σ.brk, σ.cont, σ.env, σ.out⟩)
      else expression_stmnt f toks σ
termination_by structural f _toks _σ => f

/-- Function `block` of parser.c: expect NEWLINE, expect INDENT, then run the
statement loop. -/
def block : Nat → List Tok → PState → Option Res
  | 0, _, _ => Option.none
  | f+1, toks, σ =>
      if tokAt toks σ.pos = .NEWLINE then
        if tokAt toks (σ.pos + 1) = .INDENT then blockLoop f toks ⟨σ.pos + 2, σ.brk, σ.cont, σ.env, σ.out⟩
        else Option.none
      else Option.none
termination_by structural f _toks _σ => f

/-- Statement loop of `block`: run one statement; stop before a DEDENT or
ENDMARKER; when break-pending or continue-pending is set, fast-forward over
balanced INDENT/DEDENT pairs to the DEDENT that closes this block and stop
(the token-consuming loop of parser.c, `ffLoop`). -/
def blockLoop : Nat → List Tok → PState → Option Res
  | 0, _, _ => Option.none
  | f+1, toks, σ =>
      match statement f toks σ with
      | some (.norm σ1) =>
          if tokAt toks σ1.pos = .DEDENT ∨ tokAt toks σ1.pos = .ENDMARKER then some (.norm σ1)
          else if σ1.brk || σ1.cont then some (.norm ⟨ffLoop toks 1 σ1.pos, σ1.brk, σ1.cont, σ1.env, σ1.out⟩)
          else blockLoop f toks σ1
      | some (.ret σ1 v) => some (.ret σ1 v)
      | Option.none => Option.none
termination_by structural f _toks _σ => f

/-- Function `expression_stmnt` of parser.c: evaluate a comma expression,
discard the value, expect NEWLINE. -/
def expression_stmnt : Nat → List Tok → PState → Option Res
  | 0, _, _ => Option.none
  | f+1, toks, σ =>
      match comma_expr f toks σ.pos σ.env with
      | some (_, p1, e1) =>
          if tokAt toks p1 = .NEWLINE then some (.norm ⟨p1 + 1, σ.brk, σ.cont, e1, σ.out⟩)
          else Option.none
      | Option.none => Option.none

/-- Function `variable_declaration` of parser.c: add each identifier to the
current frame (NameError when already declared), bind a default value of the
declared type, optionally evaluate the right-hand side and assign it with
coercion to the declared type (`obj_assign`), and continue at commas until
NEWLINE. -/
def variable_declaration : Nat → List Tok → ObjType → PState → Option Res
  | 0, _, _, _ => Option.none
  | f+1, toks, t, σ =>
      match tokIdent (tokAt toks σ.pos) with
      | some x =>
          if envHas σ.env x then Option.none
          else
            let e1 := envAdd σ.env x (some (defaultObj t))
            if tokAt toks (σ.pos + 1) = .EQUAL then
                match assignment_expr f toks (σ.pos + 2) e1 with
                | some (v, p2, e2) =>
                    match envLookup e2 x with
                    | some (some cur) =>
                        match obj_assign cur v with
                        | .ok stored =>
                            match envBind e2 x (some stored) with
                            | e3 =>
                                if tokAt toks p2 = .NEWLINE then some (.norm ⟨p2 + 1, σ.brk, σ.cont, e3, σ.out⟩)
                                else if tokAt toks p2 = .COMMA then variable_declaration f toks t ⟨p2 + 1, σ.brk, σ.cont, e3, σ.out⟩
                                else Option.none
                        | .error _ => Option.none
                    | _ => Option.none
                | Option.none => Option.none
            else
                if tokAt toks (σ.pos + 1) = .NEWLINE then some (.norm ⟨σ.pos + 2, σ.brk, σ.cont, e1, σ.out⟩)
                else if tokAt toks (σ.pos + 1) = .COMMA then variable_declaration f toks t ⟨σ.pos + 2, σ.brk, σ.cont, e1, σ.out⟩
                else Option.none
      | Option.none => Option.none
termination_by structural f _toks _t _σ => f

/-- Function `print_stmnt` of parser.c: evaluate assignment expressions
separated by commas, printing (collecting) each value, then expect
NEWLINE. -/
def print_stmnt : Nat → List Tok → PState → Option Res
  | 0, _, _ => Option.none
  | f+1, toks, σ =>
      match assignment_expr f toks σ.pos σ.env with
      | some (v, p1, e1) =>
          if tokAt toks p1 = .COMMA then print_stmnt f toks ⟨p1 + 1, σ.brk, σ.cont, e1, σ.out ++ [v]⟩
          else if tokAt toks p1 = .NEWLINE then some (.norm ⟨p1 + 1, σ.brk, σ.cont, e1, σ.out ++ [v]⟩)
          else Option.none
      | Option.none => Option.none
termination_by structural f _toks _σ => f

/-- Function `return_stmt` of parser.c: when NEWLINE directly follows
`return`, place a fresh int 0 in the return-value slot, otherwise the comma
expression's value; expect NEWLINE; then transfer control non-locally
(`Res.ret`). -/
def return_stmt : Nat → List Tok → PState → Option Res
  | 0, _, _ => Option.none
  | f+1, toks, σ =>
      if tokAt toks σ.pos = .NEWLINE then some (.ret ⟨σ.pos + 1, σ.brk, σ.cont, σ.env, σ.out⟩ (Obj.int 0))
      else
        match comma_expr f toks σ.pos σ.env with
        | some (v, p1, e1) =>
            if tokAt toks p1 = .NEWLINE then some (.ret ⟨p1 + 1, σ.brk, σ.cont, e1, σ.out⟩ v)
            else Option.none
        | Option.none => Option.none

/-- Function `if_stmnt` of parser.c. -/
def if_stmnt : Nat → List Tok → PState → Option Res
  | 0, _, _ => Option.none
  | f+1, toks, σ =>
      match condition f toks σ with
      | some (b, σ1) =>
          if b then
            match block f toks σ1 with
            | some (.norm σ2) =>
                if tokAt toks σ2.pos = .DEDENT then
                  if tokAt toks (σ2.pos + 1) = .ELSE then
                    match skip_block toks (σ2.pos + 2) with
                    | some p => some (.norm ⟨p, σ2.brk, σ2.cont, σ2.env, σ2.out⟩)
                    | Option.none => Option.none
                  else some (.norm ⟨σ2.pos + 1, σ2.brk, σ2.cont, σ2.env, σ2.out⟩)
                else Option.none
            | some (.ret σ2 v) => some (.ret σ2 v)
            | Option.none => Option.none
          else
            match skip_block toks σ1.pos with
            | some p =>
                if tokAt toks p = .ELSE then
                  match block f toks ⟨p + 1, σ1.brk, σ1.cont, σ1.env, σ1.out⟩ with
                  | some (.norm σ2) =>
                      if tokAt toks σ2.pos = .DEDENT then some (.norm ⟨σ2.pos + 1, σ2.brk, σ2.cont, σ2.env, σ2.out⟩)
                      else Option.none
                  | some (.ret σ2 v) => some (.ret σ2 v)
                  | Option.none => Option.none
                else some (.norm ⟨p, σ1.brk, σ1.cont, σ1.env, σ1.out⟩)
            | Option.none => Option.none
      | Option.none => Option.none
termination_by structural f _toks _σ => f

/-- Function `while_stmnt` of parser.c: clear both pending flags, save the
condition's position, run the loop; after the loop clear break-pending and
`skip_block` once — so the cursor ends past the block even when the body
never ran. -/
def while_stmnt : Nat → List Tok → PState → Option Res
  | 0, _, _ => Option.none
  | f+1, toks, σ =>
      match whileLoop f toks σ.pos ⟨σ.pos, false, false, σ.env, σ.out⟩ with
      | some (.norm σe) =>
          match skip_block toks σe.pos with
          | some q => some (.norm ⟨q, false, σe.cont, σe.env, σe.out⟩)
          | Option.none => Option.none
      | r => r
termination_by structural f _toks _σ => f

/-- Loop of `while_stmnt`: `while (condition() && !do_break) { block();
do_continue = 0; reader.jump(loop); }`. -/
def whileLoop : Nat → List Tok → Nat → PState → Option Res
  | 0, _, _, _ => Option.none
  | f+1, toks, loopPos, σ =>
      match condition f toks σ with
      | some (b, σ1) =>
          if b && !σ1.brk then
            match block f toks σ1 with
            | some (.norm σ2) => whileLoop f toks loopPos ⟨loopPos, σ2.brk, false, σ2.env, σ2.out⟩
            | some (.ret σ2 v) => some (.ret σ2 v)
            | Option.none => Option.none
          else some (.norm σ1)
      | Option.none => Option.none
termination_by structural f _toks _loopPos _σ => f

/-- Function `do_stmnt` of parser.c: require NEWLINE after `do`, clear both
pending flags, save the block's position, run the loop; after the loop clear
break-pending and expect the final NEWLINE. -/
def do_stmnt : Nat → List Tok → PState → Option Res
  | 0, _, _ => Option.none
  | f+1, toks, σ =>
      if tokAt toks σ.pos = .NEWLINE then
        match doLoop f toks σ.pos ⟨σ.pos, false, false, σ.env, σ.out⟩ with
        | some (.norm σe) =>
            if tokAt toks σe.pos = .NEWLINE then some (.norm ⟨σe.pos + 1, false, σe.cont, σe.env, σe.out⟩)
            else Option.none
        | r => r
      else Option.none
termination_by structural f _toks _σ => f

/-- Loop of `do_stmnt`: `do { reader.jump(loop); block(); do_continue = 0;
expect(DEDENT); expect(WHILE); } while (condition() && !do_break);`. -/
def doLoop : Nat → List Tok → Nat → PState → Option Res
  | 0, _, _, _ => Option.none
  | f+1, toks, loopPos, σ =>
      match block f toks ⟨loopPos, σ.brk, σ.cont, σ.env, σ.out⟩ with
      | some (.norm σ1) =>
          if tokAt toks σ1.pos = .DEDENT then
            if tokAt toks (σ1.pos + 1) = .WHILE then
              match condition f toks ⟨σ1.pos + 2, σ1.brk, false, σ1.env, σ1.out⟩ with
              | some (b, σ2) =>
                  if b && !σ2.brk then doLoop f toks loopPos σ2 else some (.norm σ2)
              | Option.none => Option.none
            else Option.none
          else Option.none
      | some (.ret σ1 v) => some (.ret σ1 v)
      | Option.none => Option.none
termination_by structural f _toks _loopPos _σ => f

/-- Function `for_stmnt` of parser.c: the loop identifier is created when
absent; expect IDENTIFIER and IN; evaluate the sequence once and take its
length; require NEWLINE; clear both pending flags, save the block position,
run the iterations; then clear break-pending and `skip_block` once. -/
def for_stmnt : Nat → List Tok → PState → Option Res
  | 0, _, _ => Option.none
  | f+1, toks, σ =>
      match tokIdent (tokAt toks σ.pos) with
      | some x =>
          let e0 := if envHas σ.env x then σ.env else envAdd σ.env x Option.none
          if tokAt toks (σ.pos + 1) = .IN then
              match comma_expr f toks (σ.pos + 2) e0 with
              | some (seq, p2, e2) =>
                  match obj_length seq with
                  | .ok len =>
                      if tokAt toks p2 = .NEWLINE then
                        match forLoop f toks x seq len 0 p2 ⟨p2, false, false, e2, σ.out⟩ with
                        | some (.norm σe) =>
                            match skip_block toks σe.pos with
                            | some q => some (.norm ⟨q, false, σe.cont, σe.env, σe.out⟩)
                            | Option.none => Option.none
                        | r => r
                      else Option.none
                  | .error _ => Option.none
              | Option.none => Option.none
          else Option.none
      | Option.none => Option.none
termination_by structural f _toks _σ => f

/-- Loop of `for_stmnt`: for each index below the length while break-pending
is clear, bind the identifier to `obj_item(sequence, i)`, run the block,
unbind, clear continue-pending and jump back. -/
def forLoop : Nat → List Tok → String → Obj → Int → Int → Nat → PState → Option Res
  | 0, _, _, _, _, _, _, _ => Option.none
  | f+1, toks, x, seq, len, i, loopPos, σ =>
      if i < len ∧ σ.brk = false then
        match obj_item seq i with
        | .ok item =>
            match block f toks ⟨σ.pos, σ.brk, σ.cont, envBind σ.env x (some item), σ.out⟩ with
            | some (.norm σ2) => forLoop f toks x seq len (i + 1) loopPos ⟨loopPos, σ2.brk, false, envUnbind σ2.env x, σ2.out⟩
            | some (.ret σ2 v) => some (.ret σ2 v)
            | Option.none => Option.none
        | .error _ => Option.none
      else some (.norm σ)
termination_by structural f _toks _x _seq _len _i _loopPos _σ => f

end

/-- Loop of `pop_arguments` (parser.c), over the remaining tokens of the
formal parameter list (in: token after LPAR; out: the RPAR, not consumed):
while the token is not RPAR, it must be an IDENTIFIER (SyntaxError
otherwise), which is added to the new frame (`identifier.add`; NameError when
already declared there) and bound to the front element removed from the
argument list (`listnode_remove(list, 0)`, modelled from the spec as the
front of the list; SyntaxError when no argument is left — "no argument on
stack"); the identifier is consumed and an optional comma accepted. -/
def pop_arguments_loop : List Tok → Env → List Obj → Except Err (List Tok × Env × List Obj)
  | .RPAR :: rest, e, args => .ok (.RPAR :: rest, e, args)
  | .IDENT x :: rest, e, args =>
      if envHas e x then .error .NameError
      else
        match args with
        | [] => .error .SyntaxError
        | a :: args1 =>
            match rest with
            | .COMMA :: rest1 => pop_arguments_loop rest1 (envAdd e x (some a)) args1
            | _ => pop_arguments_loop rest (envAdd e x (some a)) args1
  | _, _, _ => .error .SyntaxError

/-- Function `pop_arguments` of parser.c: expect LPAR, then bind formals from
the argument list.  Arguments left in the list when RPAR is reached are not
bound to anything; `function_call` releases the whole list afterwards, so
they are discarded silently. -/
def pop_arguments (toks : List Tok) (e : Env) (args : List Obj) : Except Err (List Tok × Env × List Obj) :=
  match toks with
  | .LPAR :: rest => pop_arguments_loop rest e args
  | _ => .error .SyntaxError

/-- Return-value slot handling of `function_call` (parser.c): after the body
block ran, a NULL `return_value` is replaced by a fresh int 0 ("without
return value return integer 0"); otherwise the slot's value is produced. -/
def function_call_result : Option Obj → Obj
  | Option.none => Obj.int 0
  | some v => v

/-- The return-value slot as the body's execution leaves it: a `return`
statement fills it (and transfers control, `Res.ret`); a body that falls off
its end leaves it NULL. -/
def body_return_slot : Res → Option Obj
  | .ret _ v => some v
  | .norm _ => Option.none

/-- Canonical comma-separated formal parameter list over the given names. -/
def paramToks : List String → List Tok
  | [] => []
  | [x] => [.IDENT x]
  | x :: xs => .IDENT x :: .COMMA :: paramToks xs

/-- Bindings `pop_arguments` creates: each name bound to its argument, added
in order. -/
def envAddAll (e : Env) (ps : List (String × Obj)) : Env :=
  ps.foldl (fun acc p => envAdd acc p.1 (some p.2)) e

/-! ## Claim theorems -/

/-- C1: evaluation of `x in s` at its failing input, an empty sequence.  The
claim (with the spec and `obj_in`'s own header comment `result = (int_t)(op1
in (sequence)op2)`) promises an int 0/1 object for every sequence including
an empty one; the code's loop never runs for an empty sequence and `obj_in`
returns the NULL pointer `result` started as (`Option.none` here).  A
non-sequence right operand is a TypeError and nonempty sequences yield int
0/1 by `==` against each element, as the claim says. -/
theorem C1_obj_in_empty_returns_null : obj_in (Obj.int 1) (Obj.str []) = .ok Option.none ∧ obj_in (Obj.int 1) (Obj.list []) = .ok Option.none ∧ obj_in (Obj.int 1) (Obj.int 2) = .error .TypeError ∧ obj_in (Obj.int 1) (Obj.list [Obj.int 1, Obj.int 5]) = .ok (some (Obj.int 1)) ∧ obj_in (Obj.int 1) (Obj.list [Obj.int 2]) = .ok (some (Obj.int 0)) :=
  ⟨rfl, rfl, rfl, rfl, rfl⟩

/-- C4: for operand values (after list-node dereference) that are not both
numeric, not both strings and not both lists, `==` returns int 0 and
`!=`/`<>` returns int 1; and the equality operators never fail with TypeError
— they return a value for every pair of operand types. -/
theorem C4_eql_neq_mixed_types : ∀ op1 op2 : Obj, (¬(isNumber (derefNode op1) && isNumber (derefNode op2)) = true → ¬(isString (derefNode op1) && isString (derefNode op2)) = true → ¬(isList (derefNode op1) && isList (derefNode op2)) = true → obj_eql op1 op2 = .ok (Obj.int 0) ∧ obj_neq op1 op2 = .ok (Obj.int 1)) ∧ (∃ v, obj_eql op1 op2 = .ok v) ∧ (∃ w, obj_neq op1 op2 = .ok w) := by
  intro op1 op2
  refine ⟨?_, ?_, ?_⟩
  · intro h1 h2 h3
    constructor
    · simp only [obj_eql]
      rw [if_neg h1, if_neg h2, if_neg h3]
    · simp only [obj_neq]
      rw [if_neg h1, if_neg h2, if_neg h3]
  · simp only [obj_eql]
    split
    · exact ⟨_, rfl⟩
    · split
      · exact ⟨_, rfl⟩
      · split
        · exact ⟨_, rfl⟩
        · exact ⟨_, rfl⟩
  · simp only [obj_neq]
    split
    · exact ⟨_, rfl⟩
    · split
      · exact ⟨_, rfl⟩
      · split
        · exact ⟨_, rfl⟩
        · exact ⟨_, rfl⟩

theorem C4_witness : (obj_eql (Obj.int 1) (Obj.str ['a']) = .ok (Obj.int 0) ∧ obj_neq (Obj.int 1) (Obj.str ['a']) = .ok (Obj.int 1)) ∧ (obj_eql (Obj.list [Obj.none]) (Obj.position 3) = .ok (Obj.int 0) ∧ obj_neq (Obj.list [Obj.none]) (Obj.position 3) = .ok (Obj.int 1)) :=
  ⟨(C4_eql_neq_mixed_types (Obj.int 1) (Obj.str ['a'])).1 (by decide) (by decide) (by decide),
   (C4_eql_neq_mixed_types (Obj.list [Obj.none]) (Obj.position 3)).1 (by decide) (by decide) (by decide)⟩

/-- C6 counterexample: an empty character constant and a multi-character
constant fail with SyntaxError ("empty character constant", "to many
characters in character constant"), not with ValueError as the claim
states. -/
theorem C6_counterexample : str_to_char [] = .error .SyntaxError ∧ str_to_char [] ≠ .error .ValueError ∧ str_to_char ['a', 'b'] = .error .SyntaxError ∧ str_to_char ['a', 'b'] ≠ .error .ValueError := by
  exact ⟨rfl, fun h => Err.noConfusion (Except.error.inj h), rfl, fun h => Err.noConfusion (Except.error.inj h)⟩

/-- C6 as amended: `str_to_char` accepts exactly the ten escape sequences of
`escMap` (`\0 \b \f \n \r \t \v \\ \' \"`) and single ordinary characters;
any other escape sequence fails with ValueError (a lone backslash escapes the
terminating NUL and is a ValueError as well); an empty constant or a
constant of more than one character fails with SyntaxError. -/
theorem C6_str_to_char_cases : ∀ s : List Char, (∀ c, str_to_char s = .ok c ↔ ((s = [c] ∧ c ≠ '\\') ∨ (∃ e, s = ['\\', e] ∧ escMap e = some c))) ∧ (str_to_char s = .error .ValueError ↔ (s = ['\\'] ∨ ∃ e rest, s = '\\' :: e :: rest ∧ escMap e = Option.none)) ∧ (str_to_char s = .error .SyntaxError ↔ (s = [] ∨ (∃ c rest, s = c :: rest ∧ c ≠ '\\' ∧ rest ≠ []) ∨ (∃ e c2 rest, s = '\\' :: e :: c2 :: rest ∧ escMap e ≠ Option.none))) := by
  intro s
  rcases s with _ | ⟨c, rest⟩
  · refine ⟨?_, ?_, ?_⟩ <;> simp [str_to_char]
  · by_cases hc : c = '\\'
    · subst hc
      rcases rest with _ | ⟨e, rest2⟩
      · refine ⟨?_, ?_, ?_⟩ <;> simp [str_to_char]
      · cases he : escMap e with
        | none =>
            rcases rest2 with _ | ⟨c2, rest3⟩ <;>
              · refine ⟨?_, ?_, ?_⟩ <;> simp [str_to_char, he]
        | some c0 =>
            rcases rest2 with _ | ⟨c2, rest3⟩
            · refine ⟨?_, ?_, ?_⟩ <;> simp [str_to_char, he]
            · refine ⟨?_, ?_, ?_⟩ <;> simp [str_to_char, he]
    · rcases rest with _ | ⟨c2, rest2⟩
      · refine ⟨?_, ?_, ?_⟩ <;> simp [str_to_char, hc]
      · refine ⟨?_, ?_, ?_⟩ <;> simp [str_to_char, hc]
        exact ⟨c, c2 :: rest2, ⟨rfl, rfl⟩, hc, by simp⟩

theorem isNumber_cases {a : Obj} (h : isNumber a = true) : (∃ c, a = .char c) ∨ (∃ i, a = .int i) ∨ (∃ q, a = .float q) := by
  cases a <;> simp [isNumber] at h ⊢

theorem isString_cases {a : Obj} (h : isString a = true) : ∃ s, a = .str s := by
  cases a <;> simp [isString] at h ⊢

theorem isList_cases {a : Obj} (h : isList a = true) : ∃ l, a = .list l := by
  cases a <;> simp [isList] at h ⊢

theorem isString_of_isNumber {a : Obj} (h : isNumber a = true) : isString a = false := by
  cases a <;> simp [isNumber, isString] at h ⊢

theorem isList_of_isNumber {a : Obj} (h : isNumber a = true) : isList a = false := by
  cases a <;> simp [isNumber, isList] at h ⊢

theorem obj_mult_eq (op1 op2 : Obj) : obj_mult op1 op2 = (if (isNumber (derefNode op1) && isNumber (derefNode op2)) = true then number_mul (derefNode op1) (derefNode op2) else if ((isNumber (derefNode op1) || isNumber (derefNode op2)) && (isString (derefNode op1) || isString (derefNode op2))) = true then str_repeat (derefNode op1) (derefNode op2) else if ((isNumber (derefNode op1) || isNumber (derefNode op2)) && (isList (derefNode op1) || isList (derefNode op2))) = true then list_repeat (derefNode op1) (derefNode op2) else .error .TypeError) := rfl

/-- C7 counterexample: `*` applied to a char and a string does not fail with
TypeError as the claim requires of every pair other than (str,int)/(int,str)
— `obj_mult` sends any numeric paired with a string to string repetition, the
char's integer value serving as the count. -/
theorem C7_counterexample : obj_mult (Obj.char 2) (Obj.str ['a', 'b']) = .ok (Obj.str ['a', 'b', 'a', 'b']) ∧ obj_mult (Obj.char 2) (Obj.str ['a', 'b']) ≠ .error .TypeError :=
  ⟨rfl, fun h => Except.noConfusion h⟩

/-- C7 as amended: `obj_mult` admits exactly these shapes — two numerics
yield the numeric product promoted to the higher rank; a numeric paired with
a string on either side (any numeric type, not only int) yields string
repetition; a numeric paired with a list yields list repetition; every pair
with no numeric operand, and a numeric paired with anything that is neither
numeric, string nor list, fails with TypeError. -/
theorem C7_mult_shapes : ∀ op1 op2 : Obj, (isNumber (derefNode op1) = true → isNumber (derefNode op2) = true → ∃ v, obj_mult op1 op2 = .ok v ∧ isNumber v = true ∧ rank v = max (rank (derefNode op1)) (rank (derefNode op2))) ∧ (isNumber (derefNode op1) = true → isString (derefNode op2) = true → ∃ s, obj_mult op1 op2 = .ok (Obj.str s)) ∧ (isString (derefNode op1) = true → isNumber (derefNode op2) = true → ∃ s, obj_mult op1 op2 = .ok (Obj.str s)) ∧ (isNumber (derefNode op1) = true → isList (derefNode op2) = true → ∃ l, obj_mult op1 op2 = .ok (Obj.list l)) ∧ (isList (derefNode op1) = true → isNumber (derefNode op2) = true → ∃ l, obj_mult op1 op2 = .ok (Obj.list l)) ∧ (isNumber (derefNode op1) = false → isNumber (derefNode op2) = false → obj_mult op1 op2 = .error .TypeError) ∧ (isNumber (derefNode op1) = true → isNumber (derefNode op2) = false → isString (derefNode op2) = false → isList (derefNode op2) = false → obj_mult op1 op2 = .error .TypeError) ∧ (isNumber (derefNode op2) = true → isNumber (derefNode op1) = false → isString (derefNode op1) = false → isList (derefNode op1) = false → obj_mult op1 op2 = .error .TypeError) := by
  intro op1 op2
  rw [obj_mult_eq]
  refine ⟨?_, ?_, ?_, ?_, ?_, ?_, ?_, ?_⟩
  · intro h1 h2
    obtain ⟨c, ha⟩ | ⟨i, ha⟩ | ⟨q, ha⟩ := isNumber_cases h1 <;>
      obtain ⟨c2, hb⟩ | ⟨i2, hb⟩ | ⟨q2, hb⟩ := isNumber_cases h2 <;>
        rw [ha, hb] <;>
          exact ⟨_, rfl, rfl, rfl⟩
  · intro h1 h2
    obtain ⟨s, hb⟩ := isString_cases h2
    have hsa := isString_of_isNumber h1
    obtain ⟨c, ha⟩ | ⟨i, ha⟩ | ⟨q, ha⟩ := isNumber_cases h1 <;>
      rw [ha, hb] <;>
        exact ⟨_, rfl⟩
  · intro h1 h2
    obtain ⟨s, ha⟩ := isString_cases h1
    obtain ⟨c, hb⟩ | ⟨i, hb⟩ | ⟨q, hb⟩ := isNumber_cases h2 <;>
      rw [ha, hb] <;>
        exact ⟨_, rfl⟩
  · intro h1 h2
    obtain ⟨l, hb⟩ := isList_cases h2
    obtain ⟨c, ha⟩ | ⟨i, ha⟩ | ⟨q, ha⟩ := isNumber_cases h1 <;>
      rw [ha, hb] <;>
        exact ⟨_, rfl⟩
  · intro h1 h2
    obtain ⟨l, ha⟩ := isList_cases h1
    obtain ⟨c, hb⟩ | ⟨i, hb⟩ | ⟨q, hb⟩ := isNumber_cases h2 <;>
      rw [ha, hb] <;>
        exact ⟨_, rfl⟩
  · intro h1 h2
    simp [h1, h2]
  · intro h1 h2 h3 h4
    simp [h1, h2, h3, h4, isString_of_isNumber h1, isList_of_isNumber h1]
  · intro h1 h2 h3 h4
    simp [h1, h2, h3, h4, isString_of_isNumber h1, isList_of_isNumber h1]

theorem C7_witness : (∃ v, obj_mult (Obj.int 3) (Obj.float 2) = .ok v ∧ isNumber v = true ∧ rank v = max (rank (derefNode (Obj.int 3))) (rank (derefNode (Obj.float 2)))) ∧ (∃ s, obj_mult (Obj.str ['a']) (Obj.int 3) = .ok (Obj.str s)) ∧ (∃ l, obj_mult (Obj.int 2) (Obj.list [Obj.int 9]) = .ok (Obj.list l)) ∧ obj_mult (Obj.str ['a']) (Obj.str ['b']) = .error .TypeError ∧ obj_mult (Obj.int 1) (Obj.none) = .error .TypeError :=
  ⟨(C7_mult_shapes (Obj.int 3) (Obj.float 2)).1 (by decide) (by decide),
   ((C7_mult_shapes (Obj.str ['a']) (Obj.int 3)).2.2.1) (by decide) (by decide),
   ((C7_mult_shapes (Obj.int 2) (Obj.list [Obj.int 9])).2.2.2.1) (by decide) (by decide),
   ((C7_mult_shapes (Obj.str ['a']) (Obj.str ['b'])).2.2.2.2.2.1) (by decide) (by decide),
   ((C7_mult_shapes (Obj.int 1) (Obj.none)).2.2.2.2.2.2.1) (by decide) (by decide) (by decide) (by decide)⟩

theorem envLookup_add (e : Env) (x y : String) (v : Option Obj) : envLookup (envAdd e x v) y = if x = y then some v else envLookup e y := rfl

theorem envHas_add_ne (e : Env) (x y : String) (v : Option Obj) (hne : x ≠ y) : envHas (envAdd e x v) y = envHas e y := by
  simp [envHas, envLookup_add, hne]

theorem pop_arguments_loop_spec : ∀ (names : List String) (e : Env) (args : List Obj) (rest : List Tok), names.Nodup → (∀ x ∈ names, envHas e x = false) → (names.length ≤ args.length → pop_arguments_loop (paramToks names ++ .RPAR :: rest) e args = .ok (.RPAR :: rest, envAddAll e (names.zip args), args.drop names.length)) ∧ (args.length < names.length → pop_arguments_loop (paramToks names ++ .RPAR :: rest) e args = .error .SyntaxError) := by
  intro names
  induction names with
  | nil =>
      intro e args rest _ _
      constructor
      · intro _
        simp [paramToks, pop_arguments_loop, envAddAll]
      · intro h
        simp at h
  | cons x names ih =>
      intro e args rest hnd hfresh
      have hx : envHas e x = false := hfresh x (by simp)
      have hnd2 : names.Nodup := by
        simp [List.nodup_cons] at hnd
        exact hnd.2
      have hxn : x ∉ names := by
        simp [List.nodup_cons] at hnd
        exact hnd.1
      cases names with
      | nil =>
          constructor
          · intro hlen
            cases args with
            | nil => simp at hlen
            | cons a args1 =>
                simp only [paramToks, List.cons_append, List.nil_append, pop_arguments_loop, hx]
                simp [pop_arguments_loop, envAddAll, envAdd]
          · intro hlen
            cases args with
            | nil =>
                simp only [paramToks, List.cons_append, List.nil_append, pop_arguments_loop, hx]
                simp
            | cons a args1 => simp at hlen
      | cons y names2 =>
          have hfresh2 : ∀ z ∈ y :: names2, envHas (envAdd e x (some (args.headD (Obj.int 0)))) z = false := by
            intro z hz
            rw [envHas_add_ne]
            · exact hfresh z (by simp [hz])
            · intro hzx
              subst hzx
              exact hxn hz
          constructor
          · intro hlen
            cases args with
            | nil => simp at hlen
            | cons a args1 =>
                have hle2 : (y :: names2).length ≤ args1.length := by
                  simp only [List.length_cons] at hlen ⊢
                  omega
                have hih := (ih (envAdd e x (some a)) args1 rest hnd2 (by simpa using hfresh2)).1 hle2
                simp only [paramToks, List.cons_append, pop_arguments_loop, hx, Bool.false_eq_true, if_false]
                rw [show (Tok.COMMA :: paramToks (y :: names2)).append (.RPAR :: rest) = Tok.COMMA :: (paramToks (y :: names2) ++ .RPAR :: rest) from rfl]
                dsimp only
                rw [hih]
                simp [envAddAll, envAdd]
          · intro hlen
            cases args with
            | nil =>
                simp only [paramToks, List.cons_append, pop_arguments_loop, hx]
                simp
            | cons a args1 =>
                have hlt2 : args1.length < (y :: names2).length := by
                  simp only [List.length_cons] at hlen ⊢
                  omega
                have hih := (ih (envAdd e x (some a)) args1 rest hnd2 (by simpa using hfresh2)).2 hlt2
                simp only [paramToks, List.cons_append, pop_arguments_loop, hx, Bool.false_eq_true, if_false]
                rw [show (Tok.COMMA :: paramToks (y :: names2)).append (.RPAR :: rest) = Tok.COMMA :: (paramToks (y :: names2) ++ .RPAR :: rest) from rfl]
                dsimp only
                rw [hih]

/-- C2: in `pop_arguments` each formal identifier is bound to the front
element removed from the deep-copied argument list (the copies were made by
`push_arguments`), in order; a formal with no corresponding argument fails
with SyntaxError ("no argument on stack"); when there are more arguments
than formals the parse of the formal list succeeds, the extra arguments are
bound to nothing and merely remain in the list, which `function_call`
releases afterwards — they are discarded silently. -/
theorem C2_pop_arguments : ∀ (names : List String) (e : Env) (args : List Obj) (rest : List Tok), names.Nodup → (∀ x ∈ names, envHas e x = false) → (names.length ≤ args.length → pop_arguments (.LPAR :: (paramToks names ++ .RPAR :: rest)) e args = .ok (.RPAR :: rest, envAddAll e (names.zip args), args.drop names.length)) ∧ (args.length < names.length → pop_arguments (.LPAR :: (paramToks names ++ .RPAR :: rest)) e args = .error .SyntaxError) := by
  intro names e args rest hnd hfresh
  exact pop_arguments_loop_spec names e args rest hnd hfresh

theorem C2_witness : pop_arguments [.LPAR, .IDENT "a", .COMMA, .IDENT "b", .RPAR] [] [Obj.int 1, Obj.int 2, Obj.int 3] = .ok ([.RPAR], [("b", some (Obj.int 2)), ("a", some (Obj.int 1))], [Obj.int 3]) ∧ pop_arguments [.LPAR, .IDENT "a", .COMMA, .IDENT "b", .RPAR] [] [Obj.int 1] = .error .SyntaxError :=
  ⟨(C2_pop_arguments ["a", "b"] [] [Obj.int 1, Obj.int 2, Obj.int 3] [] (by decide) (by decide)).1 (by decide),
   (C2_pop_arguments ["a", "b"] [] [Obj.int 1] [] (by decide) (by decide)).2 (by decide)⟩

/-- C3: the value a function call produces is a fresh int 0 in exactly the
two cases the claim names — `return` directly followed by NEWLINE makes
`return_stmt` store int 0 in the return-value slot, and a body that finishes
without executing any `return` leaves the slot NULL, which `function_call`
replaces by int 0; in every other case the slot holds the value of the comma
expression after `return`, and the call produces it unchanged. -/
theorem C3_return_value : ∀ (f : Nat) (toks : List Tok) (σ : PState), (tokAt toks σ.pos = .NEWLINE → return_stmt (f+1) toks σ = some (.ret ⟨σ.pos + 1, σ.brk, σ.cont, σ.env, σ.out⟩ (Obj.int 0)) ∧ function_call_result (body_return_slot (.ret ⟨σ.pos + 1, σ.brk, σ.cont, σ.env, σ.out⟩ (Obj.int 0))) = Obj.int 0) ∧ (tokAt toks σ.pos ≠ .NEWLINE → ∀ r, return_stmt (f+1) toks σ = some r → ∃ v p1 e1, comma_expr f toks σ.pos σ.env = some (v, p1, e1) ∧ r = .ret ⟨p1 + 1, σ.brk, σ.cont, e1, σ.out⟩ v ∧ function_call_result (body_return_slot r) = v) ∧ (∀ σb, function_call_result (body_return_slot (.norm σb)) = Obj.int 0) := by
  intro f toks σ
  refine ⟨?_, ?_, fun _ => rfl⟩
  · intro h
    simp only [return_stmt, h]
    exact ⟨by simp, rfl⟩
  · intro h r hr
    simp only [return_stmt, h, if_false] at hr
    cases hc : comma_expr f toks σ.pos σ.env with
    | none => rw [hc] at hr; simp at hr
    | some t =>
        rw [hc] at hr
        obtain ⟨v, p1, e1⟩ := t
        dsimp only at hr
        by_cases hn : tokAt toks p1 = .NEWLINE
        · rw [if_pos hn] at hr
          have := Option.some.inj hr
          exact ⟨v, p1, e1, rfl, this.symm, by rw [← this]; rfl⟩
        · rw [if_neg hn] at hr
          simp at hr

theorem C3_witness : (return_stmt 50 [.NEWLINE] ⟨0, false, false, [], []⟩ = some (.ret ⟨1, false, false, [], []⟩ (Obj.int 0)) ∧ function_call_result (body_return_slot (.ret ⟨1, false, false, [], []⟩ (Obj.int 0))) = Obj.int 0) ∧ (∃ v p1 e1, comma_expr 49 [.INTLIT 7, .NEWLINE] 0 [] = some (v, p1, e1) ∧ (Res.ret ⟨2, false, false, [], []⟩ (Obj.int 7)) = .ret ⟨p1 + 1, false, false, e1, []⟩ v ∧ function_call_result (body_return_slot (.ret ⟨2, false, false, [], []⟩ (Obj.int 7))) = v) ∧ function_call_result (body_return_slot (.norm ⟨0, false, false, [], []⟩)) = Obj.int 0 :=
  ⟨(C3_return_value 49 [.NEWLINE] ⟨0, false, false, [], []⟩).1 rfl,
   (C3_return_value 49 [.INTLIT 7, .NEWLINE] ⟨0, false, false, [], []⟩).2.1 (by decide) (.ret ⟨2, false, false, [], []⟩ (Obj.int 7)) rfl,
   (C3_return_value 49 [] ⟨0, false, false, [], []⟩).2.2 ⟨0, false, false, [], []⟩⟩

/-- C9: `while_stmnt`, `do_stmnt` and `for_stmnt` clear both pending flags
before testing their condition or running their first iteration, so their
behaviour is independent of whatever break/continue flags the enclosing
context left set — a pending break or continue can never make a freshly
entered loop skip or abort its first iteration. -/
theorem C9_loops_clear_flags : ∀ (f : Nat) (toks : List Tok) (σ : PState) (b c : Bool), while_stmnt f toks σ = while_stmnt f toks ⟨σ.pos, b, c, σ.env, σ.out⟩ ∧ do_stmnt f toks σ = do_stmnt f toks ⟨σ.pos, b, c, σ.env, σ.out⟩ ∧ for_stmnt f toks σ = for_stmnt f toks ⟨σ.pos, b, c, σ.env, σ.out⟩ := by
  intro f toks σ b c
  cases f with
  | zero => exact ⟨rfl, rfl, rfl⟩
  | succ f => exact ⟨rfl, rfl, rfl⟩

theorem condition_flags {f : Nat} {toks : List Tok} {σ : PState} {b : Bool} {σ1 : PState} (h : condition f toks σ = some (b, σ1)) : σ1.brk = σ.brk ∧ σ1.cont = σ.cont := by
  simp only [condition] at h
  cases hc : comma_expr f toks σ.pos σ.env with
  | none => rw [hc] at h; simp at h
  | some t =>
      rw [hc] at h
      obtain ⟨v, p1, e1⟩ := t
      dsimp only at h
      cases hb : obj_as_bool v with
      | error e => rw [hb] at h; simp at h
      | ok bb =>
          rw [hb] at h
          dsimp only at h
          have h2 := Option.some.inj h
          have h3 : (⟨p1, σ.brk, σ.cont, e1, σ.out⟩ : PState) = σ1 := congrArg Prod.snd h2
          rw [← h3]
          exact ⟨rfl, rfl⟩

theorem whileLoop_cont : ∀ (f : Nat) (toks : List Tok) (loopPos : Nat) (σ σe : PState), σ.cont = false → whileLoop f toks loopPos σ = some (.norm σe) → σe.cont = false := by
  intro f
  induction f with
  | zero =>
      intro toks lp σ σe _ hw
      simp [whileLoop] at hw
  | succ f ih =>
      intro toks lp σ σe hcont hw
      simp only [whileLoop] at hw
      cases hc : condition f toks σ with
      | none => rw [hc] at hw; simp at hw
      | some t =>
          rw [hc] at hw
          obtain ⟨b, σ1⟩ := t
          dsimp only at hw
          have hflag := condition_flags hc
          cases hbb : (b && !σ1.brk) with
          | false =>
              rw [hbb] at hw
              rw [if_neg (by simp)] at hw
              have h2 := Res.norm.inj (Option.some.inj hw)
              rw [← h2]
              rw [hflag.2]
              exact hcont
          | true =>
              rw [hbb] at hw
              rw [if_pos rfl] at hw
              cases hbl : block f toks σ1 with
              | none => rw [hbl] at hw; simp at hw
              | some r =>
                  rw [hbl] at hw
                  cases r with
                  | ret σ2 v => simp at hw
                  | norm σ2 =>
                      dsimp only at hw
                      exact ih toks lp ⟨lp, σ2.brk, false, σ2.env, σ2.out⟩ σe rfl hw

theorem doLoop_cont : ∀ (f : Nat) (toks : List Tok) (loopPos : Nat) (σ σe : PState), doLoop f toks loopPos σ = some (.norm σe) → σe.cont = false := by
  intro f
  induction f with
  | zero =>
      intro toks lp σ σe hw
      simp [doLoop] at hw
  | succ f ih =>
      intro toks lp σ σe hw
      simp only [doLoop] at hw
      cases hbl : block f toks ⟨lp, σ.brk, σ.cont, σ.env, σ.out⟩ with
      | none => rw [hbl] at hw; simp at hw
      | some r =>
          rw [hbl] at hw
          cases r with
          | ret σ1 v => simp at hw
          | norm σ1 =>
              dsimp only at hw
              by_cases h1 : tokAt toks σ1.pos = .DEDENT
              · rw [if_pos h1] at hw
                by_cases h2 : tokAt toks (σ1.pos + 1) = .WHILE
                · rw [if_pos h2] at hw
                  cases hc : condition f toks ⟨σ1.pos + 2, σ1.brk, false, σ1.env, σ1.out⟩ with
                  | none => rw [hc] at hw; simp at hw
                  | some t =>
                      rw [hc] at hw
                      obtain ⟨b, σ2⟩ := t
                      dsimp only at hw
                      have hflag := condition_flags hc
                      cases hbb : (b && !σ2.brk) with
                      | false =>
                          rw [hbb] at hw
                          rw [if_neg (by simp)] at hw
                          have h3 := Res.norm.inj (Option.some.inj hw)
                          rw [← h3]
                          exact hflag.2
                      | true =>
                          rw [hbb] at hw
                          rw [if_pos rfl] at hw
                          exact ih toks lp σ2 σe hw
                · rw [if_neg h2] at hw
                  simp at hw
              · rw [if_neg h1] at hw
                simp at hw

theorem forLoop_cont : ∀ (f : Nat) (toks : List Tok) (x : String) (seq : Obj) (len i : Int) (loopPos : Nat) (σ σe : PState), σ.cont = false → forLoop f toks x seq len i loopPos σ = some (.norm σe) → σe.cont = false := by
  intro f
  induction f with
  | zero =>
      intro toks x seq len i lp σ σe _ hw
      simp [forLoop] at hw
  | succ f ih =>
      intro toks x seq len i lp σ σe hcont hw
      simp only [forLoop] at hw
      by_cases hcnd : i < len ∧ σ.brk = false
      · rw [if_pos hcnd] at hw
        cases hit : obj_item seq i with
        | error e => rw [hit] at hw; simp at hw
        | ok item =>
            rw [hit] at hw
            dsimp only at hw
            cases hbl : block f toks ⟨σ.pos, σ.brk, σ.cont, envBind σ.env x (some item), σ.out⟩ with
            | none => rw [hbl] at hw; simp at hw
            | some r =>
                rw [hbl] at hw
                cases r with
                | ret σ2 v => simp at hw
                | norm σ2 =>
                    dsimp only at hw
                    exact ih toks x seq len (i + 1) lp ⟨lp, σ2.brk, false, envUnbind σ2.env x, σ2.out⟩ σe rfl hw
      · rw [if_neg hcnd] at hw
        have h2 := Res.norm.inj (Option.some.inj hw)
        rw [← h2]
        exact hcont

/-- Exit condition of `while_stmnt` and `for_stmnt`: both pending flags are
clear and the cursor was driven past the loop's block by `skip_block` — so
for a well-formed block at the position skip started from, the cursor stands
right after the DEDENT that closes it. -/
def LoopExit (toks : List Tok) (σ1 : PState) : Prop :=
  σ1.brk = false ∧ σ1.cont = false ∧ ∃ p, skip_block toks p = some σ1.pos ∧ ∀ body rest, toks.drop p = .NEWLINE :: .INDENT :: (body ++ .DEDENT :: rest) → GoodBody body → σ1.pos = p + body.length + 3

/-- C5: whenever a while, do-while or for statement completes normally —
whether the condition went false, the sequence ran out, or a break was
executed, and even when the body never ran — both pending flags are clear,
and the cursor is past the loop's block: for while/for it equals what
`skip_block` yields from the block's start (after the closing DEDENT of a
well-formed block), for do-while it stands after the NEWLINE that closes the
`while condition` line. -/
theorem C5_loop_exit : ∀ (f : Nat) (toks : List Tok) (σ σ1 : PState), (while_stmnt f toks σ = some (.norm σ1) → LoopExit toks σ1) ∧ (do_stmnt f toks σ = some (.norm σ1) → σ1.brk = false ∧ σ1.cont = false ∧ ∃ p, tokAt toks p = .NEWLINE ∧ σ1.pos = p + 1) ∧ (for_stmnt f toks σ = some (.norm σ1) → LoopExit toks σ1) := by
  intro f toks σ σ1
  refine ⟨?_, ?_, ?_⟩
  · intro h
    cases f with
    | zero => simp [while_stmnt] at h
    | succ f =>
        simp only [while_stmnt] at h
        cases hw : whileLoop f toks σ.pos ⟨σ.pos, false, false, σ.env, σ.out⟩ with
        | none => rw [hw] at h; simp at h
        | some r =>
            rw [hw] at h
            cases r with
            | ret σe v => simp at h
            | norm σe =>
                dsimp only at h
                cases hsb : skip_block toks σe.pos with
                | none => rw [hsb] at h; simp at h
                | some q =>
                    rw [hsb] at h
                    dsimp only at h
                    have h3 := Res.norm.inj (Option.some.inj h)
                    have hcont : σe.cont = false := whileLoop_cont f toks σ.pos _ σe rfl hw
                    rw [← h3]
                    refine ⟨rfl, hcont, σe.pos, hsb, ?_⟩
                    intro body rest hdrop hgood
                    have hp := skip_block_past toks σe.pos body rest hdrop hgood
                    rw [hsb] at hp
                    exact Option.some.inj hp
  · intro h
    cases f with
    | zero => simp [do_stmnt] at h
    | succ f =>
        simp only [do_stmnt] at h
        by_cases h0 : tokAt toks σ.pos = .NEWLINE
        · rw [if_pos h0] at h
          cases hd : doLoop f toks σ.pos ⟨σ.pos, false, false, σ.env, σ.out⟩ with
          | none => rw [hd] at h; simp at h
          | some r =>
              rw [hd] at h
              cases r with
              | ret σe v => simp at h
              | norm σe =>
                  dsimp only at h
                  by_cases h1 : tokAt toks σe.pos = .NEWLINE
                  · rw [if_pos h1] at h
                    have h3 := Res.norm.inj (Option.some.inj h)
                    have hcont : σe.cont = false := doLoop_cont f toks σ.pos _ σe hd
                    rw [← h3]
                    exact ⟨rfl, hcont, σe.pos, h1, rfl⟩
                  · rw [if_neg h1] at h
                    simp at h
        · rw [if_neg h0] at h
          simp at h
  · intro h
    cases f with
    | zero => simp [for_stmnt] at h
    | succ f =>
        simp only [for_stmnt] at h
        cases hid : tokIdent (tokAt toks σ.pos) with
        | none => rw [hid] at h; simp at h
        | some x =>
            rw [hid] at h
            dsimp only at h
            by_cases hin : tokAt toks (σ.pos + 1) = .IN
            · rw [if_pos hin] at h
              cases hcm : comma_expr f toks (σ.pos + 2) (if envHas σ.env x = true then σ.env else envAdd σ.env x Option.none) with
              | none => rw [hcm] at h; simp at h
              | some t =>
                  rw [hcm] at h
                  obtain ⟨seq, p2, e2⟩ := t
                  dsimp only at h
                  cases hlen : obj_length seq with
                  | error e => rw [hlen] at h; simp at h
                  | ok len =>
                      rw [hlen] at h
                      dsimp only at h
                      by_cases hnl : tokAt toks p2 = .NEWLINE
                      · rw [if_pos hnl] at h
                        cases hfl : forLoop f toks x seq len 0 p2 ⟨p2, false, false, e2, σ.out⟩ with
                        | none => rw [hfl] at h; simp at h
                        | some r =>
                            rw [hfl] at h
                            cases r with
                            | ret σe v => simp at h
                            | norm σe =>
                                dsimp only at h
                                cases hsb : skip_block toks σe.pos with
                                | none => rw [hsb] at h; simp at h
                                | some q =>
                                    rw [hsb] at h
                                    dsimp only at h
                                    have h3 := Res.norm.inj (Option.some.inj h)
                                    have hcont : σe.cont = false := forLoop_cont f toks x seq len 0 p2 _ σe rfl hfl
                                    rw [← h3]
                                    refine ⟨rfl, hcont, σe.pos, hsb, ?_⟩
                                    intro body rest hdrop hgood
                                    have hp := skip_block_past toks σe.pos body rest hdrop hgood
                                    rw [hsb] at hp
                                    exact Option.some.inj hp
                      · rw [if_neg hnl] at h
                        simp at h
            · rw [if_neg hin] at h
              simp at h

/-- Tokens of `while 0 \n{ pass }` — a while loop whose body never runs. -/
def toksW : List Tok := [.INTLIT 0, .NEWLINE, .INDENT, .PASS, .NEWLINE, .DEDENT, .ENDMARKER]

/-- Tokens of `for x in "ab" \n{ pass }`. -/
def toksF : List Tok := [.IDENT "x", .IN, .STRLIT ['a', 'b'], .NEWLINE, .INDENT, .PASS, .NEWLINE, .DEDENT, .ENDMARKER]

/-- Tokens of `do \n{ break } while 1` — a do-while left via break. -/
def toksD : List Tok := [.NEWLINE, .INDENT, .BREAK, .NEWLINE, .DEDENT, .WHILE, .INTLIT 1, .NEWLINE, .ENDMARKER]

theorem C5_witness : LoopExit toksW ⟨6, false, false, [], []⟩ ∧ ((⟨8, false, false, [], []⟩ : PState).brk = false ∧ (⟨8, false, false, [], []⟩ : PState).cont = false ∧ ∃ p, tokAt toksD p = .NEWLINE ∧ (⟨8, false, false, ([] : Env), ([] : List Obj)⟩ : PState).pos = p + 1) ∧ LoopExit toksF ⟨8, false, false, [("x", Option.none)], []⟩ :=
  ⟨(C5_loop_exit 100 toksW ⟨0, true, true, [], []⟩ ⟨6, false, false, [], []⟩).1 rfl,
   (C5_loop_exit 100 toksD ⟨0, true, true, [], []⟩ ⟨8, false, false, [], []⟩).2.1 rfl,
   (C5_loop_exit 100 toksF ⟨0, true, true, [], []⟩ ⟨8, false, false, [("x", Option.none)], []⟩).2.2 rfl⟩
